import Mathlib

/-!
Verification development for the AI-Likelihood Scoring Engine of the
textflow repository (src/engines/aiDetection).  The TypeScript sources are
shallowly embedded: strings become `List Char`, JavaScript numbers become
exact rationals (`ℚ`), and the few places where JavaScript arithmetic can
produce `NaN` or `±Infinity` use the explicit `JSNum` type.  The
transcendental library calls (`Math.log2`, `Math.pow(2,·)`, `Math.sqrt`)
are abstracted as parameters bundled in `RealFns`; the concrete instance
`approxFns` agrees with the IEEE-754 functions on the exactly-representable
points (powers of two for `log2`/`pow`, perfect squares for `sqrt`), which
is all the concrete evaluations below rely on.
-/

set_option linter.unusedVariables false

/- The Batteries rational-number operations are marked irreducible, which
blocks `decide` from evaluating the embedding on concrete inputs; their
definitions are perfectly computable, so transparency is restored here.
(The kernel is unaffected by reducibility attributes.) -/
set_option allowUnsafeReducibility true
attribute [semireducible] Rat.add Rat.mul Rat.inv Rat.sub Rat.neg Rat.div

/-- Strings of the embedded program are lists of characters. -/
abbrev Str := List Char

/-- Convert a Lean string literal to the embedded representation. -/
def strL (s : String) : Str := s.toList

/-- Character class of JavaScript `\s` (the whitespace characters recognised
by `String.prototype.split(/\s+/)` and `trim`). -/
def isWsChar (c : Char) : Bool :=
  let n := c.toNat
  (n == 32) || (decide (9 ≤ n ∧ n ≤ 13)) || (n == 0xa0) || (n == 0x1680) ||
  (decide (0x2000 ≤ n ∧ n ≤ 0x200a)) || (n == 0x2028) || (n == 0x2029) ||
  (n == 0x202f) || (n == 0x205f) || (n == 0x3000) || (n == 0xfeff)

/-- Character class of JavaScript `\w`: ASCII letters, digits and underscore. -/
def isWordChar (c : Char) : Bool :=
  (decide ('a' ≤ c ∧ c ≤ 'z')) || (decide ('A' ≤ c ∧ c ≤ 'Z')) ||
  (decide ('0' ≤ c ∧ c ≤ '9')) || (c == '_')

/-- Sentence-ending characters, the class `[.!?]`. -/
def isSentEnd (c : Char) : Bool := (c == '.') || (c == '!') || (c == '?')

/-- Lowercasing a string, as `String.prototype.toLowerCase` acts on the
ASCII range (the only characters our texts contain). -/
def lowerStr (s : Str) : Str := s.map Char.toLower

/-- Drop the longest prefix of `p`-characters. -/
def dropRun (p : Char → Bool) : Str → Str := List.dropWhile p

theorem dropRun_length_le (p : Char → Bool) (l : Str) :
    (dropRun p l).length ≤ l.length := by
  induction l with
  | nil => simp [dropRun]
  | cons c cs ih =>
    by_cases h : p c
    · simpa [dropRun, List.dropWhile, h] using Nat.le_succ_of_le ih
    · simp [dropRun, List.dropWhile, h]

/-- One step of `jsSplit`, consumed by a right fold.  The state is the
piece list for the suffix already processed, plus whether the character
immediately to the right was a separator (so that a separator run
produces a single boundary). -/
def jsSplitStep (p : Char → Bool) (c : Char) (st : List Str × Bool) :
    List Str × Bool :=
  if p c then
    if st.2 then st else (([] : Str) :: st.1, true)
  else
    ((match st.1 with
      | ph :: pt => (c :: ph) :: pt
      | [] => [[c]]), false)

/-- JavaScript `text.split(/X+/)` where `X` is the character class `p`:
the pieces between maximal runs of `p`-characters, keeping the empty piece
that arises before a leading run and after a trailing run, and returning
`[""]` on the empty string. -/
def jsSplit (p : Char → Bool) (l : Str) : List Str :=
  (l.foldr (jsSplitStep p) ([[]], false)).1

theorem jsSplitStep_ne_nil (p : Char → Bool) (c : Char)
    (st : List Str × Bool) (h : st.1 ≠ []) : (jsSplitStep p c st).1 ≠ [] := by
  rw [jsSplitStep]
  split_ifs with h1 h2
  · exact h
  · simp
  · cases hst : st.1 with
    | nil => exact absurd hst h
    | cons ph pt => simp [hst]

theorem jsSplit_foldr_ne_nil (p : Char → Bool) (l : Str) :
    (l.foldr (jsSplitStep p) ([[]], false)).1 ≠ [] := by
  induction l with
  | nil => simp
  | cons c rest ih =>
    rw [List.foldr_cons]
    exact jsSplitStep_ne_nil p c _ ih

theorem jsSplit_ne_nil (p : Char → Bool) (l : Str) : jsSplit p l ≠ [] :=
  jsSplit_foldr_ne_nil p l

/-- One-or-more elements of the split list. -/
theorem jsSplit_length_pos (p : Char → Bool) (l : Str) :
    1 ≤ (jsSplit p l).length := by
  have h := jsSplit_ne_nil p l
  cases hl : jsSplit p l with
  | nil => exact absurd hl h
  | cons a t => simp

/-- The nonempty pieces of a whitespace split: the "words" used throughout
the engine after `.filter(w => w.length > 0)`. -/
def splitWords (l : Str) : List Str :=
  (jsSplit isWsChar l).filter (fun w => !w.isEmpty)

/-- JavaScript `String.prototype.trim`. -/
def jsTrim (l : Str) : Str :=
  ((l.dropWhile isWsChar).reverse.dropWhile isWsChar).reverse

/-- Tokenisation pattern shared by the analyzers: lowercase the text,
replace every character outside `keep ∪ \s` by a space, split on `\s+` and
drop empty tokens.  The composite effect is: the maximal runs of
`keep`-characters of the lowercased text. -/
def tokenizeWith (keep : Char → Bool) (l : Str) : List Str :=
  ((jsSplit (fun c => !keep c) (lowerStr l)).filter (fun w => !w.isEmpty))

/-- JavaScript `Math.round`: round half toward positive infinity. -/
def jsRound (q : ℚ) : ℤ := ⌊q + 1/2⌋

/-- `Math.round(q * 10) / 10`. -/
def round1 (q : ℚ) : ℚ := (jsRound (q * 10) : ℚ) / 10

/-- `Math.round(q * 100) / 100`. -/
def round2 (q : ℚ) : ℚ := (jsRound (q * 100) : ℚ) / 100

/-- `Math.round(q * 1000) / 1000`. -/
def round3 (q : ℚ) : ℚ := (jsRound (q * 1000) : ℚ) / 1000

/-- JavaScript double values as this development needs them: a finite
(here: rational) value, `NaN`, or a signed infinity. -/
inductive JSNum where
  | n (q : ℚ)
  | nan
  | inf
  | ninf
deriving DecidableEq

/-- JavaScript division of two finite numbers: `0/0` is `NaN`, `x/0` is a
signed infinity, otherwise exact. -/
def jsDivQ (a b : ℚ) : JSNum :=
  if b = 0 then
    if a = 0 then JSNum.nan else if 0 < a then JSNum.inf else JSNum.ninf
  else JSNum.n (a / b)

/-- JavaScript division where either operand may already be special. -/
def jsDivJ : JSNum → JSNum → JSNum
  | JSNum.n a, JSNum.n b => jsDivQ a b
  | JSNum.n _, JSNum.inf => JSNum.n 0
  | JSNum.n _, JSNum.ninf => JSNum.n 0
  | JSNum.inf, JSNum.n b => if 0 ≤ b then JSNum.inf else JSNum.ninf
  | JSNum.ninf, JSNum.n b => if 0 ≤ b then JSNum.ninf else JSNum.inf
  | _, _ => JSNum.nan

/-- `Math.round(x * 1000) / 1000` lifted to special values (`Math.round`
preserves `NaN` and infinities). -/
def roundJ3 : JSNum → JSNum
  | JSNum.n q => JSNum.n (round3 q)
  | x => x

/-- `Math.round(x * 100) / 100` lifted to special values. -/
def roundJ2 : JSNum → JSNum
  | JSNum.n q => JSNum.n (round2 q)
  | x => x

/-- `Math.round(x * 10) / 10` lifted to special values. -/
def roundJ1 : JSNum → JSNum
  | JSNum.n q => JSNum.n (round1 q)
  | x => x

/-- JavaScript `x < c` for a possibly-special `x` and finite `c`
(`NaN` compares false). -/
def jsLtC (x : JSNum) (c : ℚ) : Bool :=
  match x with
  | JSNum.n q => decide (q < c)
  | JSNum.inf => false
  | JSNum.ninf => true
  | JSNum.nan => false

/-- JavaScript `x > c` for a possibly-special `x` and finite `c`. -/
def jsGtC (x : JSNum) (c : ℚ) : Bool :=
  match x with
  | JSNum.n q => decide (c < q)
  | JSNum.inf => true
  | JSNum.ninf => false
  | JSNum.nan => false

/-- One minus a possibly-special value, as in Simpson's index. -/
def jsOneSub : JSNum → JSNum
  | JSNum.n q => JSNum.n (1 - q)
  | JSNum.nan => JSNum.nan
  | JSNum.inf => JSNum.ninf
  | JSNum.ninf => JSNum.inf

/-- Abstractions of the transcendental library functions used by the
engine.  Any instantiation gives a total model; the concrete `approxFns`
below agrees with IEEE-754 `Math.log2` / `Math.pow(2,·)` / `Math.sqrt`
wherever those are exact (powers of two, perfect squares), which is all
the concrete counterexamples depend on. -/
structure RealFns where
  log2 : ℚ → ℚ
  pow2 : ℚ → ℚ
  sqrtq : ℚ → ℚ

/-- Fuel-indexed floor of the base-2 logarithm (fuel `n` always
suffices); structural, so concrete values reduce in the kernel. -/
def natLog2F : ℕ → ℕ → ℕ
  | 0, _ => 0
  | f + 1, n => if n ≤ 1 then 0 else natLog2F f (n / 2) + 1

/-- Floor of the base-2 logarithm of a natural number (0 at 0). -/
def natLog2 (n : ℕ) : ℕ := natLog2F n n

/-- Test whether a natural number is a power of two. -/
def isPow2 (n : ℕ) : Bool := decide (n ≠ 0 ∧ 2 ^ (natLog2 n) = n)

/-- Base-2 logarithm on rationals at least one: exact on powers of two,
floor of the logarithm otherwise. -/
def log2ge1 (q : ℚ) : ℚ :=
  if q.den = 1 ∧ isPow2 q.num.toNat then (natLog2 q.num.toNat : ℚ)
  else (natLog2 ⌊q⌋.toNat : ℚ)

/-- Model of `Math.log2` on positive rationals: exact at powers of two
(where the IEEE function is exact as well), an integer approximation
elsewhere. -/
def log2m (q : ℚ) : ℚ :=
  if q ≤ 0 then 0
  else if q < 1 then -(log2ge1 (1 / q))
  else log2ge1 q

/-- Model of `Math.pow(2, ·)`: exact on integer exponents. -/
def pow2m (q : ℚ) : ℚ :=
  if q.den = 1 then
    if 0 ≤ q.num then ((2 : ℚ) ^ q.num.toNat) else 1 / ((2 : ℚ) ^ (-q.num).toNat)
  else 0

/-- Fuel-indexed integer square root by upward search (fuel `n`
suffices); structural for kernel evaluation. -/
def natSqrtF (n : ℕ) : ℕ → ℕ → ℕ
  | 0, s => s
  | f + 1, s => if (s + 1) * (s + 1) ≤ n then natSqrtF n f (s + 1) else s

/-- Integer square root (floor). -/
def natSqrtL (n : ℕ) : ℕ := natSqrtF n n 0

/-- Model of `Math.sqrt`: exact on perfect rational squares. -/
def ratSqrt (q : ℚ) : ℚ :=
  if q < 0 then 0
  else
    let n := q.num.toNat
    let d := q.den
    let sn := natSqrtL n
    let sd := natSqrtL d
    if sn * sn = n ∧ sd * sd = d then (sn : ℚ) / (sd : ℚ) else 0

/-- The concrete instantiation used for evaluating the engine on the
counterexample inputs. -/
def approxFns : RealFns := { log2 := log2m, pow2 := pow2m, sqrtq := ratSqrt }

/-- Increment the count of `k` in an insertion-ordered association list,
appending `(k, 1)` when absent — the behaviour of
`map.set(k, (map.get(k) || 0) + 1)` on a JavaScript `Map`. -/
def bumpCount {α : Type} [DecidableEq α] (k : α) : List (α × ℕ) → List (α × ℕ)
  | [] => [(k, 1)]
  | (k', v) :: rest =>
    if k' = k then (k', v + 1) :: rest else (k', v) :: bumpCount k rest

/-- Lookup with default `0`, the behaviour of `map.get(k) || 0`. -/
def lookupD {α : Type} [DecidableEq α] (k : α) (l : List (α × ℕ)) : ℕ :=
  match l.find? (fun e => e.1 = k) with
  | some e => e.2
  | none => 0

/-- Build the insertion-ordered frequency map of a list, as
`getFrequencies` does with a JavaScript `Map`. -/
def freqMap {α : Type} [DecidableEq α] (l : List α) : List (α × ℕ) :=
  l.foldl (fun m x => bumpCount x m) []

/-!  ## BurstinessAnalyzer (src/engines/aiDetection/BurstinessAnalyzer.ts) -/

/-- Length distribution of sentence lengths.  `min`/`max` come from
`Math.min(...lengths)` / `Math.max(...lengths)`, which on an empty array
give `+Infinity` / `-Infinity`; hence they are `JSNum`. -/
structure LengthDistribution where
  min : JSNum
  max : JSNum
  median : ℚ
  mode : ℚ
  quartiles : ℚ × ℚ × ℚ
  histogram : List ℕ
deriving DecidableEq

structure BurstinessResult where
  sentenceMean : ℚ
  sentenceStdDev : ℚ
  coefficientOfVariation : ℚ
  burstinessIndex : ℚ
  lengthDistribution : LengthDistribution
  paragraphMean : ℚ
  paragraphStdDev : ℚ
  isLowBurstiness : Bool
  isHumanBurstiness : Bool
  interpretation : Str
deriving DecidableEq

namespace Burstiness

/-- `extractSentences`: split on `[.!?]+`, trim, drop empties. -/
def extractSentences (text : Str) : List Str :=
  ((jsSplit isSentEnd text).map jsTrim).filter (fun s => !s.isEmpty)

/-- Prepend characters onto the head piece. -/
def prependHead (xs : Str) : List Str → List Str
  | ph :: pt => (xs ++ ph) :: pt
  | [] => [xs]

/-- One step of the `/\n\n+/` split, consumed by a right fold.  The
state carries the pieces of the processed suffix and the number of
consecutive newlines immediately to the right: a pending run of two or
more is a separator, a single one is ordinary content. -/
def paraStep (c : Char) (st : List Str × ℕ) : List Str × ℕ :=
  if c = '\n' then (st.1, st.2 + 1)
  else if 2 ≤ st.2 then ([c] :: st.1, 0)
  else (prependHead (c :: List.replicate st.2 '\n') st.1, 0)

/-- JavaScript `text.split(/\n\n+/)`. -/
def splitParas (l : Str) : List Str :=
  let st := l.foldr paraStep ([[]], 0)
  if 2 ≤ st.2 then [] :: st.1
  else prependHead (List.replicate st.2 '\n') st.1

/-- `extractParagraphs`. -/
def extractParagraphs (text : Str) : List Str :=
  ((splitParas text).map jsTrim).filter (fun s => !s.isEmpty)

/-- `countWords`: nonempty `\s+`-separated fragments. -/
def countWords (s : Str) : ℕ := (splitWords s).length

/-- `mean` with the explicit empty-array guard returning 0. -/
def meanQ (arr : List ℕ) : ℚ :=
  if arr.length = 0 then 0
  else ((arr.map (fun n => (n : ℚ))).sum) / arr.length

/-- `variance` with the explicit empty-array guard returning 0. -/
def varianceQ (arr : List ℕ) (m : ℚ) : ℚ :=
  if arr.length = 0 then 0
  else ((arr.map (fun n => ((n : ℚ) - m) ^ 2)).sum) / arr.length

/-- Insertion sort ascending, modelling `[...arr].sort((a, b) => a - b)`. -/
def insertAsc (x : ℕ) : List ℕ → List ℕ
  | [] => [x]
  | y :: ys => if x ≤ y then x :: y :: ys else y :: insertAsc x ys

def sortAsc (l : List ℕ) : List ℕ := l.foldr insertAsc []

/-- `median` with its empty guard. -/
def medianQ (arr : List ℕ) : ℚ :=
  if arr.length = 0 then 0
  else
    let sorted := sortAsc arr
    let mid := sorted.length / 2
    if sorted.length % 2 ≠ 0 then (sorted.getD mid 0 : ℚ)
    else ((sorted.getD (mid - 1) 0 : ℚ) + (sorted.getD mid 0 : ℚ)) / 2

/-- `mode` with its empty guard: first value attaining the maximal
frequency, in insertion order of the frequency map. -/
def modeQ (arr : List ℕ) : ℚ :=
  if h : arr = [] then 0
  else
    let fm := freqMap arr
    let start : ℕ × ℕ := (0, arr.headD 0)
    (((fm.foldl (fun (st : ℕ × ℕ) e =>
      if st.1 < e.2 then (e.2, e.1) else st) start).2 : ℕ) : ℚ)

/-- `percentile` over an already-sorted array (linear interpolation). -/
def percentileQ (sorted : List ℕ) (p : ℚ) : ℚ :=
  let index : ℚ := (p / 100) * ((sorted.length : ℚ) - 1)
  let lower := ⌊index⌋
  let upper := ⌈index⌉
  if lower = upper then (sorted.getD lower.toNat 0 : ℚ)
  else
    let weight := index - lower
    (sorted.getD lower.toNat 0 : ℚ) * (1 - weight) +
      (sorted.getD upper.toNat 0 : ℚ) * weight

/-- `quartiles` with its empty guard. -/
def quartilesQ (arr : List ℕ) : ℚ × ℚ × ℚ :=
  if arr.length = 0 then (0, 0, 0)
  else
    let sorted := sortAsc arr
    (percentileQ sorted 25, percentileQ sorted 50, percentileQ sorted 75)

/-- `Math.max(...lengths)` as a `JSNum` (`-Infinity` on an empty array). -/
def jsMaxList (l : List ℕ) : JSNum :=
  match l with
  | [] => JSNum.ninf
  | x :: xs => JSNum.n (xs.foldl (fun a b => Nat.max a b) x : ℕ)

/-- `Math.min(...lengths)` as a `JSNum` (`+Infinity` on an empty array). -/
def jsMinList (l : List ℕ) : JSNum :=
  match l with
  | [] => JSNum.inf
  | x :: xs => JSNum.n (xs.foldl (fun a b => Nat.min a b) x : ℕ)

/-- `createHistogram`: ten bins of width `ceil(max/10)`.  On the empty
array the JavaScript loop body never runs, so ten zero bins are returned;
the `binSize = 0` case (max 0) cannot arise from `analyze`, whose sentence
lengths are at least 1, and is mapped to the last bin here. -/
def createHistogram (lengths : List ℕ) : List ℕ :=
  match lengths with
  | [] => List.replicate 10 0
  | x :: xs =>
    let mx := xs.foldl (fun a b => Nat.max a b) x
    let binSize := (mx + 9) / 10
    lengths.foldl
      (fun h len =>
        let idx := if binSize = 0 then 9 else Nat.min (len / binSize) 9
        h.set idx (h.getD idx 0 + 1))
      (List.replicate 10 0)

/-- `analyzeLengthDistribution`. -/
def analyzeLengthDistribution (lengths : List ℕ) : LengthDistribution :=
  { min := jsMinList lengths
    max := jsMaxList lengths
    median := medianQ lengths
    mode := modeQ lengths
    quartiles := quartilesQ lengths
    histogram := createHistogram lengths }

/-- `interpretBurstiness`. -/
def interpretBurstiness (index : ℚ) : Str :=
  if index < 1/4 then
    strL ("Very uniform sentence lengths - highly characteristic of AI-generated text")
  else if index < 35/100 then
    strL ("Low burstiness - likely AI-generated or highly edited text")
  else if index < 1/2 then
    strL ("Moderate burstiness - possibly human with some editing")
  else if index < 7/10 then
    strL ("Good burstiness - characteristic of natural human writing")
  else
    strL ("High burstiness - typical of casual or spontaneous human writing")

/-- `BurstinessAnalyzer.analyze`. -/
def analyze (F : RealFns) (text : Str) : BurstinessResult :=
  let sentences := extractSentences text
  let sentenceLengths := sentences.map countWords
  let mean := meanQ sentenceLengths
  let variance := varianceQ sentenceLengths mean
  let stdDev := F.sqrtq variance
  let cv := if 0 < mean then stdDev / mean else 0
  let burstinessIndex := cv
  let lengthDistribution := analyzeLengthDistribution sentenceLengths
  let paragraphs := extractParagraphs text
  let paragraphLengths := paragraphs.map countWords
  let paragraphMean := meanQ paragraphLengths
  let paragraphStdDev := F.sqrtq (varianceQ paragraphLengths paragraphMean)
  { sentenceMean := round1 mean
    sentenceStdDev := round1 stdDev
    coefficientOfVariation := round3 cv
    burstinessIndex := round3 burstinessIndex
    lengthDistribution := lengthDistribution
    paragraphMean := round1 paragraphMean
    paragraphStdDev := round1 paragraphStdDev
    isLowBurstiness := decide (burstinessIndex < 35/100)
    isHumanBurstiness := decide (1/2 < burstinessIndex)
    interpretation := interpretBurstiness burstinessIndex }

end Burstiness

/-!  ## PerplexityCalculator (src/engines/aiDetection/PerplexityCalculator.ts) -/

inductive PerplexityInterp where
  | highlyPredictable
  | predictable
  | natural
  | highlyVariable
deriving DecidableEq

structure PerplexityResult where
  perplexity : ℚ
  logProbability : ℚ
  tokenCount : ℕ
  interpretation : PerplexityInterp
deriving DecidableEq

/-- `NGramModel.tokenize`: lowercase, replace `[^\w\s]` by spaces, split
on `\s+`, drop empties — i.e. the maximal `\w`-runs of the lowercased
text. -/
def tokenizeN (l : Str) : List Str := tokenizeWith isWordChar l

/-- `PerplexityCalculator.tokenize`: same, but `[^\w\s'-]` keeps
apostrophes and hyphens as token characters. -/
def tokenizeP (l : Str) : List Str :=
  tokenizeWith (fun c => isWordChar c || c == '\'' || c == '-') l

structure NGramModel where
  n : ℕ
  frequencies : List (Str × List (Str × ℕ))
  contextCounts : List (Str × ℕ)
  totalTokens : ℕ
deriving DecidableEq

namespace NGramModel

/-- Record one (context, word) observation in the frequency map. -/
def bumpFreq (ctx w : Str) : List (Str × List (Str × ℕ)) → List (Str × List (Str × ℕ))
  | [] => [(ctx, [(w, 1)])]
  | (c, fm) :: rest =>
    if c = ctx then (c, bumpCount w fm) :: rest
    else (c, fm) :: bumpFreq ctx w rest

/-- The body of the training loop for one (context, word) pair. -/
def addTrigram (ctx w : Str) (m : NGramModel) : NGramModel :=
  { m with
    contextCounts := bumpCount ctx m.contextCounts
    frequencies := bumpFreq ctx w m.frequencies
    totalTokens := m.totalTokens + 1 }

/-- `train` on a single corpus text: for `i ≤ tokens.length - n` record
the pair (`tokens[i..i+n-2]` joined with spaces, `tokens[i+n-1]`);
specialised to the engine's `n = 3`. -/
def trainText (m : NGramModel) (text : Str) : NGramModel :=
  let tokens := tokenizeN text
  (List.range (tokens.length - 2)).foldl
    (fun m i =>
      let context := List.intercalate [' '] [tokens.getD i [], tokens.getD (i + 1) []]
      let word := tokens.getD (i + 2) []
      addTrigram context word m)
    m

/-- `train` over a corpus, starting from the freshly-constructed model. -/
def train (corpus : List Str) : NGramModel :=
  corpus.foldl trainText { n := 3, frequencies := [], contextCounts := [], totalTokens := 0 }

/-- Lookup of `frequencies.get(contextStr)`. -/
def lookupFreq (ctx : Str) (fs : List (Str × List (Str × ℕ))) :
    Option (List (Str × ℕ)) :=
  (fs.find? (fun e => e.1 = ctx)).map (fun e => e.2)

/-- `continuationProbability`: total context counts, and the part of them
whose frequency map contains `word`, combined with add-0.1 smoothing. -/
def continuationProbability (m : NGramModel) (word : Str) : ℚ :=
  let totalContinuationCount :=
    (m.frequencies.map (fun e => lookupD e.1 m.contextCounts)).sum
  let continuationCount :=
    ((m.frequencies.filter
        (fun e => (e.2.find? (fun p => p.1 = word)).isSome)).map
      (fun e => lookupD e.1 m.contextCounts)).sum
  ((continuationCount : ℚ) + 1/10) /
    ((totalContinuationCount : ℚ) + (m.frequencies.length : ℚ) * (1/10))

/-- The Laplace-smoothed unigram base case of `backoffProbability`. -/
def unigramProbability (m : NGramModel) (word : Str) : ℚ :=
  let totalCount := (m.frequencies.map (fun e => lookupD e.1 m.contextCounts)).sum
  let wordCount := (m.frequencies.map (fun e => lookupD word e.2)).sum
  ((wordCount : ℚ) + 1/10) /
    ((totalCount : ℚ) + (m.frequencies.length : ℚ) * (1/10))

mutual

/-- `NGramModel.probability` with Kneser-Ney style absolute discounting
(D = 0.75), backing off on unseen contexts. -/
def probability (m : NGramModel) (word : Str) (context : List Str) : ℚ :=
  let contextStr := List.intercalate [' '] context
  let contextCount := lookupD contextStr m.contextCounts
  if contextCount = 0 then backoffProbability m word context
  else
    match lookupFreq contextStr m.frequencies with
    | none => backoffProbability m word context
    | some contextFreq =>
      let wordCount := lookupD word contextFreq
      let uniqueWords := contextFreq.length
      let discountedCount := max 0 ((wordCount : ℚ) - 3/4)
      let contProb := continuationProbability m word
      discountedCount / (contextCount : ℚ) +
        ((3/4) * (uniqueWords : ℚ) / (contextCount : ℚ)) * contProb
termination_by (context.length, 1)

/-- `NGramModel.backoffProbability`: drop the first context word
(`context.slice(1)`); on an empty remainder use the unigram base case. -/
def backoffProbability (m : NGramModel) (word : Str) (context : List Str) : ℚ :=
  match context with
  | [] => unigramProbability m word
  | [_] => unigramProbability m word
  | _ :: rest => probability m word rest
termination_by (context.length, 0)

end

mutual

/-- Fuel-indexed variant of `probability`, used to witness that the
mutual recursion terminates within a depth bounded by the context
length. -/
def probabilityFuel (m : NGramModel) (word : Str) :
    ℕ → List Str → Option ℚ
  | 0, _ => none
  | fuel + 1, context =>
    let contextStr := List.intercalate [' '] context
    let contextCount := lookupD contextStr m.contextCounts
    if contextCount = 0 then backoffFuel m word fuel context
    else
      match lookupFreq contextStr m.frequencies with
      | none => backoffFuel m word fuel context
      | some contextFreq =>
        let wordCount := lookupD word contextFreq
        let uniqueWords := contextFreq.length
        let discountedCount := max 0 ((wordCount : ℚ) - 3/4)
        let contProb := continuationProbability m word
        some (discountedCount / (contextCount : ℚ) +
          ((3/4) * (uniqueWords : ℚ) / (contextCount : ℚ)) * contProb)

/-- Fuel-indexed variant of `backoffProbability`. -/
def backoffFuel (m : NGramModel) (word : Str) :
    ℕ → List Str → Option ℚ
  | 0, _ => none
  | _ + 1, [] => some (unigramProbability m word)
  | _ + 1, [_] => some (unigramProbability m word)
  | fuel + 1, _ :: rest => probabilityFuel m word fuel rest

end

end NGramModel

/-- The fixed reference corpus of `PerplexityCalculator` (55 sentences,
listed verbatim). -/
def TRAINING_CORPUS : List Str :=
  [ strL ("the quick brown fox jumps over the lazy dog")
  , strL ("research shows that many factors contribute to outcomes")
  , strL ("studies have demonstrated various approaches to solving problems")
  , strL ("in conclusion evidence suggests several important findings")
  , strL ("furthermore additional research reveals new insights about")
  , strL ("these findings indicate that future work should explore")
  , strL ("however there are limitations that should be considered")
  , strL ("moreover results contribute to our understanding of")
  , strL ("nevertheless this study provides valuable evidence for")
  , strL ("the data analysis reveals significant patterns in results")
  , strL ("on the other hand some researchers argue that")
  , strL ("it is important to note that these results show")
  , strL ("subsequent experiments confirmed these initial observations")
  , strL ("despite these challenges methodology proved effective")
  , strL ("the theoretical framework suggests that relationships exist between")
  , strL ("empirical evidence supports the hypothesis that")
  , strL ("statistical analysis demonstrates correlation between variables")
  , strL ("qualitative data reveals nuanced insights about")
  , strL ("quantitative measurements indicate substantial variation in")
  , strL ("preliminary findings suggest potential applications for")
  , strL ("hey what's up I was wondering if you could help")
  , strL ("thanks so much for your time and consideration")
  , strL ("I think this is a really interesting point")
  , strL ("to be honest I'm not completely sure about this")
  , strL ("let me know what you think when you get a chance")
  , strL ("sorry for the delay in getting back to you")
  , strL ("that makes sense I hadn't thought of it that way")
  , strL ("great idea let's definitely move forward with that")
  , strL ("I appreciate you bringing this to my attention")
  , strL ("no worries at all these things happen")
  , strL ("the old house stood silently against the stormy sky")
  , strL ("she walked through the garden remembering childhood memories")
  , strL ("music filled the room with warmth and nostalgia")
  , strL ("the city lights reflected in the puddles below")
  , strL ("time seemed to slow down as the moment approached")
  , strL ("his words hung in the air like fragile glass")
  , strL ("the story unfolded like a carefully crafted tapestry")
  , strL ("shadows danced across the walls in the moonlight")
  , strL ("the scent of rain brought back forgotten feelings")
  , strL ("every corner held secrets waiting to be discovered")
  , strL ("the system architecture supports multiple concurrent users")
  , strL ("implementation requires careful consideration of edge cases")
  , strL ("performance metrics indicate significant improvement over baseline")
  , strL ("the API documentation provides comprehensive usage examples")
  , strL ("debugging revealed several memory allocation issues")
  , strL ("the deployment process includes automated testing stages")
  , strL ("security protocols must be strictly enforced at all levels")
  , strL ("the database schema normalization reduces redundancy")
  , strL ("code review identified potential optimization opportunities")
  , strL ("the integration test suite covers all major use cases")
  , strL ("although the initial results were promising further investigation revealed unexpected complications")
  , strL ("despite extensive preparation the project encountered numerous challenges that required immediate attention")
  , strL ("the comprehensive analysis demonstrated clear correlations between variables previously thought to be independent")
  , strL ("while the theoretical framework provides a solid foundation practical implementation requires additional considerations")
  , strL ("given the complexity of the issue a multidisciplinary approach offers the most promising path forward")
  ]

/-- The model trained once at engine construction. -/
def trainedModel : NGramModel := NGramModel.train TRAINING_CORPUS

/-- `tokens.slice(a, b)`. -/
def sliceL {α : Type} (l : List α) (a b : ℕ) : List α := (l.drop a).take (b - a)

/-- `interpretPerplexity`. -/
def interpretPerplexity (p : ℚ) : PerplexityInterp :=
  if p < 15 then PerplexityInterp.highlyPredictable
  else if p < 30 then PerplexityInterp.predictable
  else if p < 70 then PerplexityInterp.natural
  else PerplexityInterp.highlyVariable

/-- The per-token loop of `calculate`: the `log2`-probabilities of the
tokens whose model probability is positive (context = up to two preceding
tokens). -/
def validLogProbs (F : RealFns) (m : NGramModel) (tokens : List Str) : List ℚ :=
  (List.range tokens.length).filterMap (fun i =>
    let context := sliceL tokens (i - 2) i
    let word := tokens.getD i []
    let prob := NGramModel.probability m word context
    if 0 < prob then some (F.log2 prob) else none)

/-- `PerplexityCalculator.calculate`. -/
def calculate (F : RealFns) (m : NGramModel) (text : Str) : PerplexityResult :=
  let tokens := tokenizeP text
  if tokens.length < 5 then
    { perplexity := 0, logProbability := 0, tokenCount := tokens.length
      interpretation := PerplexityInterp.natural }
  else
    let logProbabilities := validLogProbs F m tokens
    if logProbabilities.length = 0 then
      { perplexity := 100, logProbability := 0, tokenCount := tokens.length
        interpretation := PerplexityInterp.natural }
    else
      let avgLogProb := logProbabilities.sum / (logProbabilities.length : ℚ)
      let perplexity := F.pow2 (-avgLogProb)
      { perplexity := round2 perplexity
        logProbability := round2 avgLogProb
        tokenCount := logProbabilities.length
        interpretation := interpretPerplexity perplexity }

/-!  ## EntropyAnalyzer (src/engines/aiDetection/EntropyAnalyzer.ts) -/

inductive EntInterp where
  | lowEntropy
  | moderateEntropy
  | highEntropy
deriving DecidableEq

structure EntropyResult where
  shannonEntropy : ℚ
  wordEntropy : ℚ
  conditionalEntropy : ℚ
  normalizedShannon : JSNum
  interpretation : EntInterp
  byteEntropy : Option ℚ
deriving DecidableEq

namespace Entropy

/-- The value list `shannonEntropy` and `wordEntropy` iterate over.  The
source calls `Object.values(frequencies)` where `frequencies` is a
JavaScript `Map`; a `Map` keeps its entries in internal slots, not in own
enumerable properties, so `Object.values` yields the empty array.  (The
other iterations in the file use `map.values()` and do see the entries.) -/
def objectValuesOfMap {α : Type} (_ : List (α × ℕ)) : List ℕ := []

/-- `Math.log2` with its special values: `log2(0) = -Infinity`, negative
arguments give `NaN`, positive arguments use the abstracted `log2`. -/
def jsLog2 (F : RealFns) (q : ℚ) : JSNum :=
  if q = 0 then JSNum.ninf
  else if 0 < q then JSNum.n (F.log2 q)
  else JSNum.nan

/-- `shannonEntropy`: character-frequency entropy — except that the
frequency `Map` is consumed through `Object.values`, so the loop body
never runs and the result is always `round3 0 = 0`. -/
def shannonEntropy (F : RealFns) (text : Str) : ℚ :=
  let frequencies := freqMap text
  let total := text.length
  let entropy := (objectValuesOfMap frequencies).foldl
    (fun e freq =>
      let p := (freq : ℚ) / (total : ℚ)
      if 0 < p then e - p * F.log2 p else e) 0
  round3 entropy

/-- Word list used by `wordEntropy` and `conditionalEntropy`:
`text.toLowerCase().split(/\s+/).filter(w => w.length > 0)` (no character
stripping — punctuation stays attached to the words). -/
def wordsWS (text : Str) : List Str :=
  (jsSplit isWsChar (lowerStr text)).filter (fun w => !w.isEmpty)

/-- `wordEntropy`: same `Object.values(Map)` pattern, hence always 0. -/
def wordEntropy (F : RealFns) (text : Str) : ℚ :=
  let words := wordsWS text
  let frequencies := freqMap words
  let total := words.length
  let entropy := (objectValuesOfMap frequencies).foldl
    (fun e freq =>
      let p := (freq : ℚ) / (total : ℚ)
      if 0 < p then e - p * F.log2 p else e) 0
  round3 entropy

/-- JavaScript `context.split(' ')`: split on every single space
character (not on runs). -/
def splitChar (sep : Char) : Str → Str → List Str
  | acc, [] => [acc.reverse]
  | acc, c :: rest =>
    if c = sep then acc.reverse :: splitChar sep [] rest
    else splitChar sep (c :: acc) rest

/-- `getContextProbabilities`: count, for every position, the word
following an occurrence of `context`, then normalise to probabilities.
The `startIndex` parameter is accepted and ignored, as in the source. -/
def getContextProbabilities (tokens : List Str) (context : Str)
    (startIndex : ℕ) : List (Str × ℚ) :=
  let ctxWords := (splitChar ' ' [] context).length
  let step := fun (st : List (Str × ℕ) × ℕ) (i : ℕ) =>
    let tokenContext := List.intercalate [' '] (sliceL tokens i (i + ctxWords))
    if tokenContext = context then
      (bumpCount (tokens.getD (i + ctxWords) []) st.1, st.2 + 1)
    else st
  let res := (List.range (tokens.length - 1)).foldl step ([], 0)
  if 0 < res.2 then res.1.map (fun e => (e.1, (e.2 : ℚ) / (res.2 : ℚ)))
  else res.1.map (fun e => (e.1, (e.2 : ℚ)))

/-- The loop body of `conditionalEntropy` at position `i`, accumulating
(negated-log sum, count). -/
def condStep (F : RealFns) (tokens : List Str) (ngramSize : ℕ)
    (st : ℚ × ℕ) (i : ℕ) : ℚ × ℕ :=
  let context := List.intercalate [' '] (sliceL tokens i (i + ngramSize - 1))
  let nextWord := tokens.getD (i + ngramSize) []
  let contextProbs := getContextProbabilities tokens context i
  match contextProbs.find? (fun e => e.1 = nextWord) with
  | some e => if 0 < e.2 then (st.1 - F.log2 e.2, st.2 + 1) else st
  | none => st

/-- The accumulated (negated-log sum, count) pair of the
`conditionalEntropy` loop. -/
def condTotals (F : RealFns) (tokens : List Str) (ngramSize : ℕ) : ℚ × ℕ :=
  (List.range (tokens.length - ngramSize)).foldl (condStep F tokens ngramSize) (0, 0)

/-- `conditionalEntropy` (the engine calls it with `ngramSize = 2`).
Note the queried word is `tokens[i + ngramSize]`, two places after the
start of the 1-word context `tokens.slice(i, i + ngramSize - 1)`. -/
def conditionalEntropy (F : RealFns) (text : Str) (ngramSize : ℕ) : ℚ :=
  if (wordsWS text).length < ngramSize + 1 then 0
  else if 0 < (condTotals F (wordsWS text) ngramSize).2 then
    round3 ((condTotals F (wordsWS text) ngramSize).1 /
      ((condTotals F (wordsWS text) ngramSize).2 : ℚ))
  else 0

/-- `byteEntropy`: the frequency `Map` is iterated through
`frequencies.values()` here, so this one really computes the entropy of
the character-code distribution. -/
def byteEntropy (F : RealFns) (text : Str) : ℚ :=
  let frequencies := freqMap (text.map Char.toNat)
  let total := text.length
  let entropy := frequencies.foldl
    (fun e fr =>
      let p := (fr.2 : ℚ) / (total : ℚ)
      if 0 < p then e - p * F.log2 p else e) 0
  round3 entropy

/-- `normalizedEntropy`: rounded Shannon entropy divided by
`Math.log2(min(length, 256))`. -/
def normalizedEntropy (F : RealFns) (text : Str) : JSNum :=
  let entropy := shannonEntropy F text
  let maxEntropy := jsLog2 F (min (text.length : ℚ) 256)
  roundJ3 (jsDivJ (JSNum.n entropy) maxEntropy)

/-- `EntropyAnalyzer.analyze`. -/
def analyze (F : RealFns) (text : Str) : EntropyResult :=
  let shannon := shannonEntropy F text
  let wordEnt := wordEntropy F text
  let conditional := conditionalEntropy F text 2
  let normalized := normalizedEntropy F text
  let interpretation :=
    if jsLtC normalized (85/100) then EntInterp.lowEntropy
    else if jsLtC normalized (95/100) then EntInterp.moderateEntropy
    else EntInterp.highEntropy
  { shannonEntropy := shannon
    wordEntropy := wordEnt
    conditionalEntropy := conditional
    normalizedShannon := normalized
    interpretation := interpretation
    byteEntropy := some (byteEntropy F text) }

end Entropy

/-!  ## Regular-expression machinery

The fingerprint detector and the stylometric subordinate-clause counter
use a small set of regular expressions.  Each is hand-compiled to a
deterministic matcher over suffixes (`Str → Option Str`, returning the
unconsumed remainder).  Greedy `\w+`/`\s+` need no backtracking because
each is followed by a disjoint character class, and every alternation in
the source patterns is either first-character-disjoint or is compiled
with its trailing `\b` folded into each alternative, so ordered choice is
faithful to the backtracking engine. -/

/-- Consume a (lowercase) literal, comparing case-insensitively. -/
def litCI : Str → Str → Option Str
  | [], s => some s
  | _ :: _, [] => none
  | c :: cs, d :: ds => if Char.toLower d = c then litCI cs ds else none

/-- Greedy `X+` for a character class: at least one `p`-character, then
the maximal run. -/
def plus1 (p : Char → Bool) : Str → Option Str
  | [] => none
  | c :: rest => if p c then some (rest.dropWhile p) else none

/-- Greedy `X*` for a character class. -/
def starC (p : Char → Bool) (s : Str) : Option Str := some (s.dropWhile p)

/-- A `\b` boundary after a word character: succeeds without consuming
input iff the next character is absent or not a word character. -/
def wordB : Str → Option Str
  | [] => some []
  | c :: rest => if isWordChar c then none else some (c :: rest)

/-- Sequencing of matchers. -/
def pseq (f g : Str → Option Str) (s : Str) : Option Str := (f s).bind g

/-- Ordered alternation. -/
def altOf : List (Str → Option Str) → Str → Option Str
  | [], _ => none
  | f :: fs, s =>
    match f s with
    | some r => some r
    | none => altOf fs s

/-- A matcher that never grows the remainder. -/
def NonGrow (f : Str → Option Str) : Prop :=
  ∀ s r, f s = some r → r.length ≤ s.length

/-- A matcher that always consumes at least one character. -/
def Shrinks (f : Str → Option Str) : Prop :=
  ∀ s r, f s = some r → r.length < s.length

theorem Shrinks.nonGrow {f : Str → Option Str} (h : Shrinks f) : NonGrow f :=
  fun s r hr => Nat.le_of_lt (h s r hr)

theorem litCI_nonGrow (lit : Str) : NonGrow (litCI lit) := by
  induction lit with
  | nil => intro s r h; simp [litCI] at h; simp [h]
  | cons c cs ih =>
    intro s r h
    cases s with
    | nil => simp [litCI] at h
    | cons d ds =>
      rw [litCI] at h
      split at h
      · exact Nat.le_succ_of_le (ih ds r h)
      · exact absurd h (by simp)

theorem litCI_shrinks (c : Char) (cs : Str) : Shrinks (litCI (c :: cs)) := by
  intro s r h
  cases s with
  | nil => simp [litCI] at h
  | cons d ds =>
    rw [litCI] at h
    split at h
    · exact Nat.lt_succ_of_le (litCI_nonGrow cs ds r h)
    · exact absurd h (by simp)

theorem dropWhile_length_le (p : Char → Bool) (l : Str) :
    (l.dropWhile p).length ≤ l.length := dropRun_length_le p l

theorem plus1_shrinks (p : Char → Bool) : Shrinks (plus1 p) := by
  intro s r h
  cases s with
  | nil => simp [plus1] at h
  | cons c rest =>
    rw [plus1] at h
    split at h
    · cases h
      exact Nat.lt_succ_of_le (dropWhile_length_le p rest)
    · exact absurd h (by simp)

theorem starC_nonGrow (p : Char → Bool) : NonGrow (starC p) := by
  intro s r h
  cases h
  exact dropWhile_length_le p s

theorem wordB_nonGrow : NonGrow wordB := by
  intro s r h
  cases s with
  | nil => simp [wordB] at h; simp [h]
  | cons c rest =>
    rw [wordB] at h
    split at h
    · exact absurd h (by simp)
    · cases h; exact Nat.le_refl _

theorem pseq_nonGrow {f g : Str → Option Str} (hf : NonGrow f) (hg : NonGrow g) :
    NonGrow (pseq f g) := by
  intro s r h
  rw [pseq] at h
  cases hf' : f s with
  | none => rw [hf'] at h; simp at h
  | some m =>
    rw [hf'] at h
    simp at h
    exact Nat.le_trans (hg m r h) (hf s m hf')

theorem pseq_shrinks_left {f g : Str → Option Str} (hf : Shrinks f)
    (hg : NonGrow g) : Shrinks (pseq f g) := by
  intro s r h
  rw [pseq] at h
  cases hf' : f s with
  | none => rw [hf'] at h; simp at h
  | some m =>
    rw [hf'] at h
    simp at h
    exact Nat.lt_of_le_of_lt (hg m r h) (hf s m hf')

theorem pseq_shrinks_right {f g : Str → Option Str} (hf : NonGrow f)
    (hg : Shrinks g) : Shrinks (pseq f g) := by
  intro s r h
  rw [pseq] at h
  cases hf' : f s with
  | none => rw [hf'] at h; simp at h
  | some m =>
    rw [hf'] at h
    simp at h
    exact Nat.lt_of_lt_of_le (hg m r h) (hf s m hf')

theorem altOf_shrinks {fs : List (Str → Option Str)}
    (h : ∀ f ∈ fs, Shrinks f) : Shrinks (altOf fs) := by
  induction fs with
  | nil => intro s r hr; simp [altOf] at hr
  | cons f fs ih =>
    intro s r hr
    rw [altOf] at hr
    cases hf : f s with
    | some m =>
      rw [hf] at hr
      cases hr
      exact h f (List.mem_cons_self f fs) s r hf
    | none =>
      rw [hf] at hr
      exact ih (fun g hg => h g (List.mem_cons_of_mem f hg)) s r hr

/-- A compiled pattern: whether a `\b` precedes its first (always
word-)character, the matcher, and the proof that a successful match
consumes at least one character (all source patterns do; this is what
makes the `exec` drain loop terminate, since JavaScript would spin
forever on an empty match with the `g` flag). -/
structure Pat where
  needB : Bool
  run : Str → Option Str
  shrink : Shrinks run

/-- Does a boundary-requiring pattern's start `\b` hold, given the
character before the current position?  (All source patterns start with a
word character, so the boundary holds iff the previous character is
absent or not a word character.) -/
def prevOK (needB : Bool) (prev : Option Char) : Bool :=
  !needB || !(match prev with
    | some c => isWordChar c
    | none => false)

/-- Attempt a match at the current position, returning the matched
length. -/
def tryHere (needB : Bool) (run : Str → Option Str) (prev : Option Char)
    (s : Str) : Option ℕ :=
  if prevOK needB prev then (run s).map (fun r => s.length - r.length)
  else none

/-- Scan for the leftmost match position at or after the current one.
`prev` is the character before the current position, for the `\b`
check. -/
def scanFrom (needB : Bool) (run : Str → Option Str) :
    Option Char → Str → ℕ → Option (ℕ × ℕ)
  | prev, [], pos => (tryHere needB run prev []).map (fun l => (pos, l))
  | prev, c :: rest, pos =>
    match tryHere needB run prev (c :: rest) with
    | some l => some (pos, l)
    | none => scanFrom needB run (some c) rest (pos + 1)

/-- `RegExp.prototype.exec` on a `g`-flagged regex: search from
`lastIndex`, reporting the match position and length. -/
def execPat (P : Pat) (t : Str) (li : ℕ) : Option (ℕ × ℕ) :=
  let prev := if li = 0 then none else (t.drop (li - 1)).head?
  scanFrom P.needB P.run prev (t.drop li) li

/-- The `while ((match = re.exec(text)) !== null)` loop: each successful
`exec` advances `lastIndex` to the end of the match; the terminating
`null` resets `lastIndex` to 0.  Fuel `t.length + 1` always suffices
(`runLoopGo_snd_eq_zero`). -/
def runLoopGo (P : Pat) (t : Str) :
    ℕ → ℕ → List (ℕ × ℕ) → List (ℕ × ℕ) × ℕ
  | 0, li, acc => (acc.reverse, li)
  | fuel + 1, li, acc =>
    match execPat P t li with
    | none => (acc.reverse, 0)
    | some (p, l) => runLoopGo P t fuel (p + l) ((p, l) :: acc)

/-- Run a pattern's exec loop from the given `lastIndex` state, returning
the matches and the final `lastIndex`. -/
def runPat (P : Pat) (t : Str) (li : ℕ) : List (ℕ × ℕ) × ℕ :=
  runLoopGo P t (t.length + 1) li []

theorem tryHere_spec {needB : Bool} {run : Str → Option Str}
    (hr : Shrinks run) {prev : Option Char} {s : Str} {l : ℕ}
    (h : tryHere needB run prev s = some l) : 1 ≤ l ∧ l ≤ s.length := by
  rw [tryHere] at h
  split at h
  · cases hrun : run s with
    | none => rw [hrun] at h; simp at h
    | some r =>
      rw [hrun] at h
      simp at h
      have := hr _ _ hrun
      omega
  · simp at h

theorem scanFrom_spec (needB : Bool) (run : Str → Option Str)
    (hr : Shrinks run) :
    ∀ (prev : Option Char) (s : Str) (pos p l : ℕ),
      scanFrom needB run prev s pos = some (p, l) →
      pos ≤ p ∧ 1 ≤ l ∧ p + l ≤ pos + s.length := by
  intro prev s
  induction s generalizing prev with
  | nil =>
    intro pos p l h
    rw [scanFrom] at h
    cases ht : tryHere needB run prev [] with
    | none => rw [ht] at h; simp at h
    | some l' =>
      have := tryHere_spec hr ht
      simp at this
      omega
  | cons c rest ih =>
    intro pos p l h
    rw [scanFrom] at h
    cases ht : tryHere needB run prev (c :: rest) with
    | some l' =>
      rw [ht] at h
      simp at h
      obtain ⟨hp, hl⟩ := h
      subst hp hl
      have := tryHere_spec hr ht
      simp only [List.length_cons] at this ⊢
      omega
    | none =>
      rw [ht] at h
      simp only [] at h
      have := ih (some c) (pos + 1) p l h
      simp only [List.length_cons]
      omega

theorem runLoopGo_snd_eq_zero (P : Pat) (t : Str) :
    ∀ (fuel li : ℕ) (acc : List (ℕ × ℕ)),
      1 ≤ fuel → t.length + 1 ≤ li + fuel →
      (runLoopGo P t fuel li acc).2 = 0 := by
  intro fuel
  induction fuel with
  | zero => intro li acc h1 _; exact absurd h1 (by omega)
  | succ f ih =>
    intro li acc _ hfl
    rw [runLoopGo]
    cases hx : execPat P t li with
    | none => simp
    | some pl =>
      obtain ⟨p, l⟩ := pl
      rw [execPat] at hx
      have hspec := scanFrom_spec P.needB P.run P.shrink _ _ _ _ _ hx
      have hdrop : (t.drop li).length = t.length - li := by
        simp [List.length_drop]
      have hli : li ≤ t.length := by
        rcases Nat.lt_or_ge li (t.length + 1) with h | h
        · omega
        · exfalso
          have hnil : t.drop li = [] := List.drop_eq_nil_of_le (by omega)
          rw [hnil] at hx
          rw [scanFrom] at hx
          cases ht : tryHere P.needB P.run
              (if li = 0 then none else (t.drop (li - 1)).head?) [] with
          | none => rw [ht] at hx; simp at hx
          | some l' =>
            have := tryHere_spec P.shrink ht
            simp at this
            omega
      exact ih (p + l) ((p, l) :: acc) (by omega) (by omega)

/-- After any complete exec loop the shared regex's `lastIndex` is back
to 0, whatever state it started in. -/
theorem runPat_snd_eq_zero (P : Pat) (t : Str) (li : ℕ) :
    (runPat P t li).2 = 0 :=
  runLoopGo_snd_eq_zero P t (t.length + 1) li [] (by omega) (by omega)

/-- Ordered alternation of case-insensitive literals, e.g.
`(therefore|thus|hence)`.  Sound as ordered choice because in every
source group at most one literal can match at a given position (no two
alternatives agree on a common prefix that extends to a full match). -/
def litsAlt (ws : List Str) : Str → Option Str := altOf (ws.map litCI)

/-- Ordered alternation of literals each followed by `\b`, e.g.
`(that|which|who)\b`; the trailing boundary is folded into each
alternative so that ordered choice reproduces the backtracking search. -/
def wordAlt (ws : List Str) : Str → Option Str :=
  altOf (ws.map (fun w => pseq (litCI w) wordB))

/-- `(\w+\s+){1,2}` followed by a tail: greedily try two iterations,
falling back to one, as the backtracking engine does. -/
def rep12 (iter tail : Str → Option Str) (s : Str) : Option Str :=
  match iter s with
  | none => none
  | some s1 =>
    match iter s1 with
    | some s2 =>
      match tail s2 with
      | some r => some r
      | none => tail s1
    | none => tail s1

theorem litCI_shrinks_of_ne (w : Str) (h : w ≠ []) : Shrinks (litCI w) := by
  cases w with
  | nil => exact absurd rfl h
  | cons c cs => exact litCI_shrinks c cs

theorem litsAlt_shrinks (ws : List Str) (h : ∀ w ∈ ws, w ≠ []) :
    Shrinks (litsAlt ws) := by
  refine altOf_shrinks ?_
  intro f hf
  obtain ⟨w, hw, rfl⟩ := List.mem_map.mp hf
  exact litCI_shrinks_of_ne w (h w hw)

theorem wordAlt_shrinks (ws : List Str) (h : ∀ w ∈ ws, w ≠ []) :
    Shrinks (wordAlt ws) := by
  refine altOf_shrinks ?_
  intro f hf
  obtain ⟨w, hw, rfl⟩ := List.mem_map.mp hf
  exact pseq_shrinks_left (litCI_shrinks_of_ne w (h w hw)) wordB_nonGrow

theorem rep12_shrinks {iter tail : Str → Option Str} (hi : Shrinks iter)
    (ht : NonGrow tail) : Shrinks (rep12 iter tail) := by
  intro s r h
  rw [rep12] at h
  cases h1 : iter s with
  | none => rw [h1] at h; simp at h
  | some s1 =>
    rw [h1] at h
    simp only [] at h
    have hs1 := hi _ _ h1
    cases h2 : iter s1 with
    | none =>
      rw [h2] at h
      simp only [] at h
      exact Nat.lt_of_le_of_lt (ht _ _ h) hs1
    | some s2 =>
      rw [h2] at h
      simp only [] at h
      have hs2 := hi _ _ h2
      cases h3 : tail s2 with
      | some r' =>
        rw [h3] at h
        simp only [Option.some.injEq] at h
        subst h
        exact Nat.lt_trans (Nat.lt_of_le_of_lt (ht _ _ h3) hs2) hs1
      | none =>
        rw [h3] at h
        simp only [] at h
        exact Nat.lt_of_le_of_lt (ht _ _ h) hs1

/-!  ## AIFingerprintDetector (src/unnamed/part_000)

The ten entries of `AI_PATTERNS`, hand-compiled.  Capture groups are
irrelevant to `exec`'s index/length and are dropped. -/

/-- `/\b(the|a)\s+\w+\s+(is|are)\s+(characterized by|defined as)/gi` -/
def p1run : Str → Option Str :=
  pseq (litsAlt [strL ("the"), strL ("a")])
    (pseq (plus1 isWsChar)
      (pseq (plus1 isWordChar)
        (pseq (plus1 isWsChar)
          (pseq (litsAlt [strL ("is"), strL ("are")])
            (pseq (plus1 isWsChar)
              (litsAlt [strL ("characterized by"), strL ("defined as")]))))))

/-- `/\b(therefore|thus|hence)\s*,\s+/gi` -/
def p2run : Str → Option Str :=
  pseq (litsAlt [strL ("therefore"), strL ("thus"), strL ("hence")])
    (pseq (starC isWsChar) (pseq (litCI (strL (","))) (plus1 isWsChar)))

/-- `/\b(moreover|furthermore|additionally)\s*,\s+/gi` -/
def p3run : Str → Option Str :=
  pseq (litsAlt [strL ("moreover"), strL ("furthermore"), strL ("additionally")])
    (pseq (starC isWsChar) (pseq (litCI (strL (","))) (plus1 isWsChar)))

/-- `/\b(first|second|third|finally)\s*,\s+/gi` -/
def p4run : Str → Option Str :=
  pseq (litsAlt [strL ("first"), strL ("second"), strL ("third"), strL ("finally")])
    (pseq (starC isWsChar) (pseq (litCI (strL (","))) (plus1 isWsChar)))

/-- `/\bin\s+(\w+)\s+(way|manner|fashion)\b/gi` -/
def p5run : Str → Option Str :=
  pseq (litCI (strL ("in")))
    (pseq (plus1 isWsChar)
      (pseq (plus1 isWordChar)
        (pseq (plus1 isWsChar)
          (wordAlt [strL ("way"), strL ("manner"), strL ("fashion")]))))

/-- `/\bit\s+(is|has|was)\s+\w+\s+(that|which|who)\b/gi` -/
def p6run : Str → Option Str :=
  pseq (litCI (strL ("it")))
    (pseq (plus1 isWsChar)
      (pseq (litsAlt [strL ("is"), strL ("has"), strL ("was")])
        (pseq (plus1 isWsChar)
          (pseq (plus1 isWordChar)
            (pseq (plus1 isWsChar)
              (wordAlt [strL ("that"), strL ("which"), strL ("who")]))))))

/-- `/\bthis\s+\w+\s+(suggests|demonstrates|indicates|reveals)\b/gi` -/
def p7run : Str → Option Str :=
  pseq (litCI (strL ("this")))
    (pseq (plus1 isWsChar)
      (pseq (plus1 isWordChar)
        (pseq (plus1 isWsChar)
          (wordAlt [strL ("suggests"), strL ("demonstrates"),
            strL ("indicates"), strL ("reveals")]))))

/-- `/\bto\s+conclude\b/gi` -/
def p8run : Str → Option Str :=
  pseq (litCI (strL ("to"))) (pseq (plus1 isWsChar) (wordAlt [strL ("conclude")]))

/-- `/\bin\s+closing\b/gi` -/
def p9run : Str → Option Str :=
  pseq (litCI (strL ("in"))) (pseq (plus1 isWsChar) (wordAlt [strL ("closing")]))

/-- `/\b(to|a)\s+(\w+\s+){1,2}(degree|extent)\b/gi` -/
def p10run : Str → Option Str :=
  pseq (litsAlt [strL ("to"), strL ("a")])
    (pseq (plus1 isWsChar)
      (rep12 (pseq (plus1 isWordChar) (plus1 isWsChar))
        (wordAlt [strL ("degree"), strL ("extent")])))

theorem p1run_shrinks : Shrinks p1run :=
  pseq_shrinks_left (litsAlt_shrinks _ (by decide))
    (pseq_nonGrow (plus1_shrinks _).nonGrow
      (pseq_nonGrow (plus1_shrinks _).nonGrow
        (pseq_nonGrow (plus1_shrinks _).nonGrow
          (pseq_nonGrow (litsAlt_shrinks _ (by decide)).nonGrow
            (pseq_nonGrow (plus1_shrinks _).nonGrow
              (litsAlt_shrinks _ (by decide)).nonGrow)))))

theorem p2run_shrinks : Shrinks p2run :=
  pseq_shrinks_left (litsAlt_shrinks _ (by decide))
    (pseq_nonGrow (starC_nonGrow _)
      (pseq_nonGrow (litCI_nonGrow _) (plus1_shrinks _).nonGrow))

theorem p3run_shrinks : Shrinks p3run :=
  pseq_shrinks_left (litsAlt_shrinks _ (by decide))
    (pseq_nonGrow (starC_nonGrow _)
      (pseq_nonGrow (litCI_nonGrow _) (plus1_shrinks _).nonGrow))

theorem p4run_shrinks : Shrinks p4run :=
  pseq_shrinks_left (litsAlt_shrinks _ (by decide))
    (pseq_nonGrow (starC_nonGrow _)
      (pseq_nonGrow (litCI_nonGrow _) (plus1_shrinks _).nonGrow))

theorem p5run_shrinks : Shrinks p5run :=
  pseq_shrinks_left (litCI_shrinks_of_ne _ (by decide))
    (pseq_nonGrow (plus1_shrinks _).nonGrow
      (pseq_nonGrow (plus1_shrinks _).nonGrow
        (pseq_nonGrow (plus1_shrinks _).nonGrow
          (wordAlt_shrinks _ (by decide)).nonGrow)))

theorem p6run_shrinks : Shrinks p6run :=
  pseq_shrinks_left (litCI_shrinks_of_ne _ (by decide))
    (pseq_nonGrow (plus1_shrinks _).nonGrow
      (pseq_nonGrow (litsAlt_shrinks _ (by decide)).nonGrow
        (pseq_nonGrow (plus1_shrinks _).nonGrow
          (pseq_nonGrow (plus1_shrinks _).nonGrow
            (pseq_nonGrow (plus1_shrinks _).nonGrow
              (wordAlt_shrinks _ (by decide)).nonGrow)))))

theorem p7run_shrinks : Shrinks p7run :=
  pseq_shrinks_left (litCI_shrinks_of_ne _ (by decide))
    (pseq_nonGrow (plus1_shrinks _).nonGrow
      (pseq_nonGrow (plus1_shrinks _).nonGrow
        (pseq_nonGrow (plus1_shrinks _).nonGrow
          (wordAlt_shrinks _ (by decide)).nonGrow)))

theorem p8run_shrinks : Shrinks p8run :=
  pseq_shrinks_left (litCI_shrinks_of_ne _ (by decide))
    (pseq_nonGrow (plus1_shrinks _).nonGrow (wordAlt_shrinks _ (by decide)).nonGrow)

theorem p9run_shrinks : Shrinks p9run :=
  pseq_shrinks_left (litCI_shrinks_of_ne _ (by decide))
    (pseq_nonGrow (plus1_shrinks _).nonGrow (wordAlt_shrinks _ (by decide)).nonGrow)

theorem p10run_shrinks : Shrinks p10run :=
  pseq_shrinks_left (litsAlt_shrinks _ (by decide))
    (pseq_nonGrow (plus1_shrinks _).nonGrow
      (rep12_shrinks
        (pseq_shrinks_left (plus1_shrinks _) (plus1_shrinks _).nonGrow)
        (wordAlt_shrinks _ (by decide)).nonGrow).nonGrow)

/-- The module-level `AI_PATTERNS` array: these ten regex objects are
shared by every call of `detectPatterns`, so their `lastIndex` state is
threaded explicitly. -/
def AI_PATTERNS : List Pat :=
  [ ⟨true, p1run, p1run_shrinks⟩
  , ⟨true, p2run, p2run_shrinks⟩
  , ⟨true, p3run, p3run_shrinks⟩
  , ⟨true, p4run, p4run_shrinks⟩
  , ⟨true, p5run, p5run_shrinks⟩
  , ⟨true, p6run, p6run_shrinks⟩
  , ⟨true, p7run, p7run_shrinks⟩
  , ⟨true, p8run, p8run_shrinks⟩
  , ⟨true, p9run, p9run_shrinks⟩
  , ⟨true, p10run, p10run_shrinks⟩ ]

/-- The `AI_MARKER_WORDS` set: the source list with its literal
duplicates removed ('meticulous' and 'meticulously' appear twice more in
the array literal, and a `Set` keeps only the first insertion), in
insertion order, which is the order `for (const word of ...)` visits. -/
def AI_MARKER_WORDS : List Str :=
  [ strL ("delve"), strL ("tapestry"), strL ("landscape"), strL ("underscore")
  , strL ("paramount"), strL ("nuanced"), strL ("multifaceted"), strL ("testament")
  , strL ("realm"), strL ("poised"), strL ("unwavering"), strL ("meticulous")
  , strL ("harnessing"), strL ("leveraging"), strL ("game-changer"), strL ("paradigm")
  , strL ("stark"), strL ("crucial role"), strL ("arguably"), strL ("notably")
  , strL ("subsequently"), strL ("foster"), strL ("cultivate"), strL ("myriad")
  , strL ("intersection"), strL ("dichotomy"), strL ("juxtapose"), strL ("elucidate")
  , strL ("disseminate"), strL ("ameliorate"), strL ("exacerbate"), strL ("proliferation")
  , strL ("comprehensively"), strL ("meticulously"), strL ("seamlessly")
  , strL ("effortlessly"), strL ("intriguingly"), strL ("fascinatingly")
  , strL ("noteworthily"), strL ("significantly"), strL ("substantially")
  , strL ("considerably"), strL ("paradigmatic"), strL ("epitomize")
  , strL ("exemplify"), strL ("characterize"), strL ("reverberate")
  , strL ("transcend"), strL ("transcending"), strL ("transcended")
  , strL ("democratize"), strL ("revolutionize"), strL ("pioneer")
  , strL ("groundbreaking") ]

/-- The `AI_MARKER_PHRASES` array (all characters are regex-literal after
`escapeRegex`, and none needs escaping). -/
def AI_MARKER_PHRASES : List Str :=
  [ strL ("it is important to note"), strL ("in conclusion")
  , strL ("it is worth noting"), strL ("on the other hand")
  , strL ("at the end of the day"), strL ("all things considered")
  , strL ("needless to say"), strL ("last but not least")
  , strL ("first and foremost"), strL ("in a nutshell")
  , strL ("plays a crucial role"), strL ("it can be argued")
  , strL ("from a theoretical perspective"), strL ("it is evident that")
  , strL ("research has shown"), strL ("studies have demonstrated")
  , strL ("it is clear that"), strL ("this suggests that")
  , strL ("it is worth mentioning"), strL ("it should be noted")
  , strL ("with this in mind"), strL ("taking this into account")
  , strL ("in light of this"), strL ("given these considerations")
  , strL ("for the purposes of"), strL ("in the realm of")
  , strL ("at its core"), strL ("in essence")
  , strL ("to sum up"), strL ("in summary")
  , strL ("moving forward"), strL ("going forward")
  , strL ("it is essential to"), strL ("it is imperative that")
  , strL ("it is crucial that"), strL ("there are several factors")
  , strL ("a multitude of"), strL ("a plethora of")
  , strL ("a wide range of"), strL ("time and time again")
  , strL ("over the course of"), strL ("in the face of")
  , strL ("with regard to"), strL ("pertaining to")
  , strL ("in terms of"), strL ("by and large")
  , strL ("to a large extent"), strL ("in a significant way")
  , strL ("in meaningful ways"), strL ("in profound ways")
  , strL ("in tangible ways") ]

theorem markerWords_ne_nil : ∀ w ∈ AI_MARKER_WORDS, w ≠ [] := by decide

theorem markerPhrases_ne_nil : ∀ w ∈ AI_MARKER_PHRASES, w ≠ [] := by decide

/-- The per-word regex `new RegExp("\\b" + word + "\\b", "gi")` of
`detectMarkerWords` (built afresh on every call, so no cross-call
state). -/
def wordPat (w : Str) (h : w ≠ []) : Pat :=
  ⟨true, pseq (litCI w) wordB,
    pseq_shrinks_left (litCI_shrinks_of_ne w h) wordB_nonGrow⟩

/-- The per-phrase regex `new RegExp(escapeRegex(phrase), "gi")` of
`detectMarkerPhrases` (no word boundaries). -/
def phrasePat (w : Str) (h : w ≠ []) : Pat :=
  ⟨false, litCI w, litCI_shrinks_of_ne w h⟩

inductive MarkerType where
  | word
  | phrase
  | pattern
deriving DecidableEq

structure DetectedMarker where
  type : MarkerType
  value : Str
  position : ℕ
  context : Str
deriving DecidableEq

/-- `text.substring(start, end).replace(/\s+/g, ' ').trim()`: collapse
whitespace runs to single spaces and trim, i.e. rejoin the words. -/
def collapseTrim (l : Str) : Str := List.intercalate [' '] (splitWords l)

/-- Build a `DetectedMarker` from a match (position, length) with the
given context radius (50 for words/phrases, 30 for patterns). -/
def mkMarker (ty : MarkerType) (radius : ℕ) (t : Str) (pl : ℕ × ℕ) :
    DetectedMarker :=
  { type := ty
    value := sliceL t pl.1 (pl.1 + pl.2)
    position := pl.1
    context := collapseTrim (sliceL t (pl.1 - radius)
      (Nat.min t.length (pl.1 + pl.2 + radius))) }

/-- `detectMarkerWords` (fresh regexes, `lastIndex` starts at 0). -/
def detectMarkerWords (t : Str) : List DetectedMarker :=
  (AI_MARKER_WORDS.attach.map (fun w =>
    ((runPat (wordPat w.1 (markerWords_ne_nil w.1 w.2)) t 0).1.map
      (mkMarker MarkerType.word 50 t)))).flatten

/-- `detectMarkerPhrases` (fresh regexes, `lastIndex` starts at 0). -/
def detectMarkerPhrases (t : Str) : List DetectedMarker :=
  (AI_MARKER_PHRASES.attach.map (fun w =>
    ((runPat (phrasePat w.1 (markerPhrases_ne_nil w.1 w.2)) t 0).1.map
      (mkMarker MarkerType.phrase 50 t)))).flatten

/-- `detectPatterns` over the shared module-level regexes: the k-th
pattern starts from the k-th stored `lastIndex` and leaves its final
`lastIndex` behind. -/
def detectPatternsSt (t : Str) (st : List ℕ) :
    List DetectedMarker × List ℕ :=
  let dummy : Pat := ⟨true, fun _ => none, by intro s r h; simp at h⟩
  let rs := (List.range AI_PATTERNS.length).map (fun k =>
    runPat (AI_PATTERNS.getD k dummy) t (st.getD k 0))
  ((rs.map (fun r => r.1.map (mkMarker MarkerType.pattern 30 t))).flatten,
    rs.map (fun r => r.2))

structure AIFingerprintResult where
  markerWordCount : ℕ
  markerPhraseCount : ℕ
  patternMatchCount : ℕ
  totalMarkers : ℕ
  normalizedScore : ℚ
  density : ℚ
  detectedMarkers : List DetectedMarker
  isHighDensity : Bool
  interpretation : Str
deriving DecidableEq

/-- `interpretDensity`. -/
def interpretDensity (density : ℚ) : Str :=
  if density < 1/2 then
    strL ("Very few AI markers - likely human-written")
  else if density < 3/2 then
    strL ("Few AI markers detected - possibly edited by human")
  else if density < 3 then
    strL ("Moderate AI markers - likely AI-assisted or lightly edited")
  else if density < 5 then
    strL ("Many AI markers - likely AI-generated with minimal editing")
  else
    strL ("Very high AI marker density - strongly characteristic of AI-generated text")

/-- `AIFingerprintDetector.detect`, threading the shared patterns'
`lastIndex` state. -/
def detect (t : Str) (st : List ℕ) : AIFingerprintResult × List ℕ :=
  let wordMatches := detectMarkerWords t
  let phraseMatches := detectMarkerPhrases t
  let pm := detectPatternsSt t st
  let detectedMarkers := wordMatches ++ phraseMatches ++ pm.1
  let totalMarkers := detectedMarkers.length
  let wordCount := (jsSplit isWsChar t).length
  let density := ((totalMarkers : ℚ) / (wordCount : ℚ)) * 100
  let normalizedScore : ℚ := min 100 ((jsRound (density * 25) : ℤ) : ℚ)
  ({ markerWordCount := wordMatches.length
     markerPhraseCount := phraseMatches.length
     patternMatchCount := pm.1.length
     totalMarkers := totalMarkers
     normalizedScore := normalizedScore
     density := round2 density
     detectedMarkers := detectedMarkers
     isHighDensity := decide (2 < density)
     interpretation := interpretDensity density }, pm.2)

/-- The exec loops of `detectPatterns` always drain the shared regexes,
so every stored `lastIndex` ends at 0 regardless of the incoming state. -/
theorem detectPatternsSt_snd (t : Str) (st : List ℕ) :
    (detectPatternsSt t st).2 = List.replicate AI_PATTERNS.length 0 := by
  rw [detectPatternsSt]
  simp only [List.map_map]
  rw [List.eq_replicate_iff]
  constructor
  · simp
  · intro b hb
    obtain ⟨k, hk, rfl⟩ := List.mem_map.mp hb
    exact runPat_snd_eq_zero _ _ _

/-- The fingerprint result is a function of the text alone, and the
state left behind is always the all-zero vector. -/
theorem detect_state (t : Str) (st : List ℕ) :
    (detect t st).2 = List.replicate AI_PATTERNS.length 0 := by
  rw [detect]
  exact detectPatternsSt_snd t st

/-- The pattern matches reported by `detectPatterns` depend on the stored
state only through the `getD` reads. -/
theorem detectPatternsSt_fst_congr (t : Str) (st st' : List ℕ)
    (h : ∀ k, st.getD k 0 = st'.getD k 0) :
    (detectPatternsSt t st).1 = (detectPatternsSt t st').1 := by
  rw [detectPatternsSt, detectPatternsSt]
  simp only []
  congr 1
  refine congrArg _ (List.map_congr_left ?_)
  intro k hk
  rw [h k]

/-- Two `detect` calls from states that agree entry-wise (e.g. both all
zeros) give the same result. -/
theorem detect_result_congr (t : Str) (st st' : List ℕ)
    (h : ∀ k, st.getD k 0 = st'.getD k 0) :
    (detect t st).1 = (detect t st').1 := by
  have h1 := detectPatternsSt_fst_congr t st st' h
  simp only [detect]
  rw [h1]

/-!  ## StylometricAnalyzer (src/engines/aiDetection/StylometricAnalyzer.ts)

Most features divide by a word or sentence count with no emptiness guard,
so the fields are `JSNum` (`0/0` is `NaN`, `x/0` is an infinity); the two
explicitly guarded ratios return finite 0 on an empty denominator. -/

structure StylometricFeatures where
  typeTokenRatio : JSNum
  hapaxLegemnaRatio : JSNum
  yulesK : JSNum
  simpsonsIndex : JSNum
  averageSentenceLength : JSNum
  averageClauseCount : JSNum
  subordinateClauseRatio : JSNum
  averageWordLength : JSNum
  polysyllableRatio : JSNum
  punctuationVariety : JSNum
  commaToSentenceRatio : JSNum
  functionWordRatio : JSNum
  stopWordFrequency : JSNum
  verbRatio : JSNum
  nounRatio : JSNum
  adjectiveRatio : JSNum
deriving DecidableEq

namespace Stylometry

/-- The `STOP_WORDS` set ("which" is listed twice in the literal; a `Set`
keeps one). -/
def STOP_WORDS : List Str :=
  [ strL ("the"), strL ("is"), strL ("at"), strL ("which"), strL ("on")
  , strL ("and"), strL ("a"), strL ("an"), strL ("in"), strL ("to")
  , strL ("of"), strL ("for"), strL ("with"), strL ("by"), strL ("from")
  , strL ("as"), strL ("it"), strL ("that"), strL ("this")
  , strL ("be"), strL ("are"), strL ("was"), strL ("were"), strL ("has")
  , strL ("have"), strL ("had"), strL ("been")
  , strL ("will"), strL ("would"), strL ("could"), strL ("should")
  , strL ("may"), strL ("might"), strL ("must")
  , strL ("i"), strL ("you"), strL ("he"), strL ("she"), strL ("we")
  , strL ("they"), strL ("me"), strL ("him"), strL ("her")
  , strL ("my"), strL ("your"), strL ("his"), strL ("its"), strL ("our")
  , strL ("their"), strL ("what")
  , strL ("who"), strL ("whom"), strL ("where"), strL ("when")
  , strL ("why"), strL ("how"), strL ("all"), strL ("each")
  , strL ("every"), strL ("both"), strL ("few"), strL ("more")
  , strL ("most"), strL ("other"), strL ("some"), strL ("such") ]

/-- The `FUNCTION_WORDS` set ("then" is listed twice; a `Set` keeps
one). -/
def FUNCTION_WORDS : List Str :=
  [ strL ("the"), strL ("a"), strL ("an"), strL ("and"), strL ("or")
  , strL ("but"), strL ("if"), strL ("then"), strL ("else")
  , strL ("when"), strL ("while"), strL ("of"), strL ("at"), strL ("by")
  , strL ("for"), strL ("with"), strL ("about")
  , strL ("against"), strL ("between"), strL ("into"), strL ("through")
  , strL ("during"), strL ("before")
  , strL ("after"), strL ("above"), strL ("below"), strL ("to")
  , strL ("from"), strL ("up"), strL ("down"), strL ("in")
  , strL ("out"), strL ("on"), strL ("off"), strL ("over"), strL ("under")
  , strL ("again"), strL ("further")
  , strL ("once"), strL ("i"), strL ("you"), strL ("he"), strL ("she")
  , strL ("it"), strL ("we"), strL ("they")
  , strL ("me"), strL ("him"), strL ("her"), strL ("us"), strL ("them")
  , strL ("my"), strL ("your"), strL ("his"), strL ("its")
  , strL ("our"), strL ("their"), strL ("mine"), strL ("yours")
  , strL ("hers"), strL ("ours"), strL ("theirs")
  , strL ("this"), strL ("that"), strL ("these"), strL ("those")
  , strL ("is"), strL ("are"), strL ("was"), strL ("were")
  , strL ("be"), strL ("been"), strL ("being"), strL ("have")
  , strL ("has"), strL ("had"), strL ("do"), strL ("does"), strL ("did")
  , strL ("will"), strL ("would"), strL ("shall"), strL ("should")
  , strL ("can"), strL ("could"), strL ("may"), strL ("might")
  , strL ("must"), strL ("ought"), strL ("need"), strL ("dare")
  , strL ("let"), strL ("please") ]

/-- `StylometricAnalyzer.tokenize`: identical to `NGramModel.tokenize`
(lowercase, keep `\w` runs). -/
def tokenize (l : Str) : List Str := tokenizeWith isWordChar l

/-- `StylometricAnalyzer.extractSentences`: identical to the burstiness
helper. -/
def extractSentences (text : Str) : List Str := Burstiness.extractSentences text

/-- `getWordFrequencies` (the tokens are already lowercase; the inner
`toLowerCase` is reproduced anyway). -/
def getWordFrequencies (words : List Str) : List (Str × ℕ) :=
  freqMap (words.map lowerStr)

/-- `calculateTTR`: unique words over total words, with no emptiness
guard (`0/0` is `NaN` for a wordless text). -/
def calculateTTR (words : List Str) : JSNum :=
  roundJ3 (jsDivQ (((words.map lowerStr).dedup).length : ℚ) (words.length : ℚ))

/-- `calculateHapaxLegemna`. -/
def calculateHapaxLegemna (words : List Str) : JSNum :=
  let frequencies := getWordFrequencies words
  let hapaxCount := (frequencies.filter (fun e => e.2 == 1)).length
  roundJ3 (jsDivQ (hapaxCount : ℚ) (words.length : ℚ))

/-- `calculateYulesK`. -/
def calculateYulesK (words : List Str) : JSNum :=
  let frequencies := getWordFrequencies words
  let M : ℚ := (words.length : ℚ)
  let sumSquares : ℚ := ((frequencies.map (fun e => e.2 * e.2)).sum : ℕ)
  roundJ2 (jsDivQ (10000 * (M * M - sumSquares)) (M * M))

/-- `calculateSimpsonsIndex`. -/
def calculateSimpsonsIndex (words : List Str) : JSNum :=
  let frequencies := getWordFrequencies words
  let N : ℚ := (words.length : ℚ)
  let s : ℚ := ((frequencies.map (fun e => e.2 * (e.2 - 1))).sum : ℕ)
  roundJ3 (jsOneSub (jsDivQ s (N * (N - 1))))

/-- `averageSentenceLength`: whitespace words of the whole text over the
sentence count, unguarded. -/
def averageSentenceLength (text : Str) (sentences : List Str) : JSNum :=
  roundJ1 (jsDivQ ((splitWords text).length : ℚ) (sentences.length : ℚ))

/-- Commas and semicolons of a sentence, the `[,;]` clause markers. -/
def clauseMarks (s : Str) : ℕ :=
  (s.filter (fun c => c == ',' || c == ';')).length

/-- `averageClauseCount`, unguarded. -/
def averageClauseCount (sentences : List Str) : JSNum :=
  let totalClauses := (sentences.map (fun s => clauseMarks s + 1)).sum
  roundJ1 (jsDivQ (totalClauses : ℚ) (sentences.length : ℚ))

/-- The subordinate-conjunction word list of `subordinateClauseRatio`. -/
def SUBORDINATE_WORDS : List Str :=
  [ strL ("that"), strL ("which"), strL ("who"), strL ("whom")
  , strL ("whose"), strL ("where"), strL ("when"), strL ("why")
  , strL ("how"), strL ("because"), strL ("since"), strL ("although")
  , strL ("though"), strL ("while"), strL ("if"), strL ("unless")
  , strL ("until"), strL ("before"), strL ("after"), strL ("once")
  , strL ("than") ]

theorem subordinate_ne_nil : ∀ w ∈ SUBORDINATE_WORDS, w ≠ [] := by decide

/-- The regex `/\b(that|which|...|than)\b/gi` of
`subordinateClauseRatio`, compiled with the trailing boundary folded into
each alternative. -/
def subordinatePat : Pat :=
  ⟨true, wordAlt SUBORDINATE_WORDS, wordAlt_shrinks _ subordinate_ne_nil⟩

/-- Number of subordinate-conjunction matches in a sentence. -/
def countSubMatches (s : Str) : ℕ := (runPat subordinatePat s 0).1.length

/-- `subordinateClauseRatio`, with its explicit `totalClauses > 0`
guard. -/
def subordinateClauseRatio (sentences : List Str) : JSNum :=
  let subordinateCount := (sentences.map countSubMatches).sum
  let totalClauses := (sentences.map (fun s => clauseMarks s + 1)).sum
  if 0 < totalClauses then
    JSNum.n (round3 ((subordinateCount : ℚ) / (totalClauses : ℚ)))
  else JSNum.n 0

/-- `averageWordLength`, unguarded. -/
def averageWordLength (words : List Str) : JSNum :=
  roundJ2 (jsDivQ (((words.map List.length).sum : ℕ) : ℚ) (words.length : ℚ))

/-- The vowel class `[aeiouy]` of the syllable counter. -/
def vowelCh (c : Char) : Bool :=
  c == 'a' || c == 'e' || c == 'i' || c == 'o' || c == 'u' || c == 'y'

/-- The class `[^laeiouy]` of the syllable counter's suffix patterns. -/
def notVowelL (c : Char) : Bool := !(c == 'l' || vowelCh c)

/-- `word.replace(/(?:[^laeiouy]es|ed|[^laeiouy]e)$/, '')`: drop a
trailing `Xes` (X outside `laeiouy`), else a trailing `ed`, else a
trailing `Xe`; the matched characters (including `X`) are removed. -/
def stripEnding (w : Str) : Str :=
  match w.reverse with
  | 's' :: 'e' :: x :: rest => if notVowelL x then rest.reverse else w
  | 'd' :: 'e' :: rest => rest.reverse
  | 'e' :: x :: rest => if notVowelL x then rest.reverse else w
  | _ => w

/-- Count of `/[aeiouy]{1,2}/g` matches: each maximal vowel run of
length k yields ceil(k/2) greedy matches. -/
def vgCount : Str → ℕ
  | [] => 0
  | [c] => if vowelCh c then 1 else 0
  | c :: d :: rest =>
    if vowelCh c then
      if vowelCh d then 1 + vgCount rest else 1 + vgCount (d :: rest)
    else vgCount (d :: rest)

/-- `countSyllables`. -/
def countSyllables (w : Str) : ℕ :=
  let word := (lowerStr w).filter (fun c => decide ('a' ≤ c ∧ c ≤ 'z'))
  if word.length ≤ 3 then 1
  else
    let word1 := stripEnding word
    let word2 :=
      match word1 with
      | 'y' :: rest => rest
      | other => other
    let m := vgCount word2
    if m = 0 then 1 else m

/-- `polysyllableRatio` (3+ syllables), unguarded. -/
def polysyllableRatio (words : List Str) : JSNum :=
  roundJ3 (jsDivQ
    (((words.filter (fun w => decide (3 ≤ countSyllables w))).length : ℚ))
    (words.length : ℚ))

/-- The punctuation class of `punctuationVariety`. -/
def isPunctCh (c : Char) : Bool :=
  c == '.' || c == ',' || c == ';' || c == ':' || c == '!' || c == '?' ||
  c == '(' || c == ')' || c == '[' || c == ']' || c == '{' || c == '}' ||
  c == '\'' || c == '"' || c == '-'

/-- `punctuationVariety`: the number of distinct punctuation marks. -/
def punctuationVariety (text : Str) : JSNum :=
  JSNum.n (((text.filter isPunctCh).dedup).length : ℚ)

/-- `commaToSentenceRatio`, with its explicit sentence-count guard. -/
def commaToSentenceRatio (text : Str) (sentences : List Str) : JSNum :=
  let commas := (text.filter (fun c => c == ',')).length
  if 0 < sentences.length then
    JSNum.n (round2 ((commas : ℚ) / (sentences.length : ℚ)))
  else JSNum.n 0

/-- `functionWordRatio`, unguarded. -/
def functionWordRatio (words : List Str) : JSNum :=
  let functionWords := words.filter (fun w => decide (lowerStr w ∈ FUNCTION_WORDS))
  roundJ3 (jsDivQ (functionWords.length : ℚ) (words.length : ℚ))

/-- `stopWordFrequency`, unguarded. -/
def stopWordFrequency (words : List Str) : JSNum :=
  let stopWords := words.filter (fun w => decide (lowerStr w ∈ STOP_WORDS))
  roundJ3 (jsDivQ (stopWords.length : ℚ) (words.length : ℚ))

/-- The closed verb list of `verbRatio`.  The test is
`/\b(am|is|...)\b/i.test(w)`; a token is a maximal `\w`-run, so the
boundaries can only sit at its ends and the test is membership. -/
def VERB_WORDS : List Str :=
  [ strL ("am"), strL ("is"), strL ("are"), strL ("was"), strL ("were")
  , strL ("be"), strL ("been"), strL ("being"), strL ("have"), strL ("has")
  , strL ("had"), strL ("do"), strL ("does"), strL ("did"), strL ("will")
  , strL ("would"), strL ("shall"), strL ("should"), strL ("can")
  , strL ("could"), strL ("may"), strL ("might"), strL ("must")
  , strL ("need"), strL ("dare"), strL ("ought"), strL ("used") ]

/-- `verbRatio`, unguarded. -/
def verbRatio (words : List Str) : JSNum :=
  let verbs := words.filter (fun w => decide (w ∈ VERB_WORDS))
  roundJ3 (jsDivQ (verbs.length : ℚ) (words.length : ℚ))

/-- Word ends with the given suffix and has at least one character
before it (the `\w+` of the suffix patterns). -/
def endsSuf (suf w : Str) : Bool :=
  (w.reverse.take suf.length == suf.reverse) && decide (suf.length < w.length)

/-- `nounRatio`: `\b(\w+ing|\w+tion|\w+ness|\w+ment|\w+ity|\w+ty|\w+er|\w+or)\b`
or `\b(\w+[ae]s)\b`, on whole tokens. -/
def nounRatio (words : List Str) : JSNum :=
  let suf1 := [strL ("ing"), strL ("tion"), strL ("ness"), strL ("ment")
    , strL ("ity"), strL ("ty"), strL ("er"), strL ("or")]
  let suf2 := [strL ("as"), strL ("es")]
  let nouns := words.filter (fun w =>
    suf1.any (fun s => endsSuf s w) || suf2.any (fun s => endsSuf s w))
  roundJ3 (jsDivQ (nouns.length : ℚ) (words.length : ℚ))

/-- `adjectiveRatio`, on whole tokens. -/
def adjectiveRatio (words : List Str) : JSNum :=
  let sufs := [strL ("ful"), strL ("less"), strL ("ous"), strL ("ive")
    , strL ("able"), strL ("ible"), strL ("ent"), strL ("ant")
    , strL ("ic"), strL ("al")]
  let adjectives := words.filter (fun w => sufs.any (fun s => endsSuf s w))
  roundJ3 (jsDivQ (adjectives.length : ℚ) (words.length : ℚ))

/-- `StylometricAnalyzer.extractFeatures`. -/
def extractFeatures (text : Str) : StylometricFeatures :=
  let words := tokenize text
  let sentences := extractSentences text
  { typeTokenRatio := calculateTTR words
    hapaxLegemnaRatio := calculateHapaxLegemna words
    yulesK := calculateYulesK words
    simpsonsIndex := calculateSimpsonsIndex words
    averageSentenceLength := averageSentenceLength text sentences
    averageClauseCount := averageClauseCount sentences
    subordinateClauseRatio := subordinateClauseRatio sentences
    averageWordLength := averageWordLength words
    polysyllableRatio := polysyllableRatio words
    punctuationVariety := punctuationVariety text
    commaToSentenceRatio := commaToSentenceRatio text sentences
    functionWordRatio := functionWordRatio words
    stopWordFrequency := stopWordFrequency words
    verbRatio := verbRatio words
    nounRatio := nounRatio words
    adjectiveRatio := adjectiveRatio words }

end Stylometry

/-!  ## ScoringEngine (src/engines/aiDetection/ScoringEngine.ts) -/

inductive Confidence where
  | high
  | medium
  | low
deriving DecidableEq

inductive Verdict where
  | definitelyAI
  | likelyAI
  | possiblyAI
  | uncertain
  | possiblyHuman
  | likelyHuman
  | definitelyHuman
deriving DecidableEq

structure ScoreSet where
  perplexity : ℚ
  burstiness : ℚ
  entropy : ℚ
  stylometry : ℚ
  fingerprint : ℚ
deriving DecidableEq

structure Metrics where
  perplexity : PerplexityResult
  burstiness : BurstinessResult
  entropy : EntropyResult
  stylometry : StylometricFeatures
  fingerprint : AIFingerprintResult
deriving DecidableEq

structure Details where
  reason : Str
  keyIndicators : List Str
  warnings : List Str
deriving DecidableEq

structure AIDetectionResult where
  aiProbability : ℤ
  humanProbability : ℤ
  scores : ScoreSet
  metrics : Metrics
  confidence : Confidence
  verdict : Verdict
  recommendations : List Str
  details : Details
deriving DecidableEq

structure ScoringWeights where
  perplexity : ℚ
  burstiness : ℚ
  entropy : ℚ
  stylometry : ℚ
  fingerprint : ℚ

/-- The `DEFAULT_WEIGHTS`: 0.30, 0.25, 0.15, 0.15, 0.15. -/
def DEFAULT_WEIGHTS : ScoringWeights :=
  { perplexity := 3/10, burstiness := 1/4, entropy := 3/20
    stylometry := 3/20, fingerprint := 3/20 }

namespace Scoring

/-- `scorePerplexity` (perplexity 0 is the neutral short-text marker). -/
def scorePerplexity (metrics : PerplexityResult) : ℚ :=
  if metrics.perplexity = 0 then 50
  else if metrics.perplexity < 10 then 95
  else if metrics.perplexity < 20 then 85
  else if metrics.perplexity < 30 then 70
  else if metrics.perplexity < 45 then 55
  else if metrics.perplexity < 60 then 40
  else if metrics.perplexity < 80 then 25
  else 10

/-- `scoreBurstiness`: the step table on the (stored, rounded)
coefficient of variation. -/
def scoreBurstiness (metrics : BurstinessResult) : ℚ :=
  let cv := metrics.coefficientOfVariation
  if cv < 2/10 then 90
  else if cv < 3/10 then 75
  else if cv < 4/10 then 60
  else if cv < 5/10 then 45
  else if cv < 6/10 then 30
  else if cv < 75/100 then 20
  else 10

/-- `scoreEntropy` on the normalized Shannon entropy (which can be `NaN`;
all the `<` comparisons are then false and the result is 25, exactly as
in JavaScript). -/
def scoreEntropy (metrics : EntropyResult) : ℚ :=
  let norm := metrics.normalizedShannon
  if jsLtC norm (8/10) then 85
  else if jsLtC norm (85/100) then 70
  else if jsLtC norm (9/10) then 55
  else if jsLtC norm (95/100) then 40
  else 25

/-- `scoreStylometry`: rule-based adjustments from 50, clamped to
[0, 100].  Comparisons against possibly-`NaN` features use JavaScript
semantics (`NaN` compares false). -/
def scoreStylometry (metrics : StylometricFeatures) : ℚ :=
  let s0 : ℚ := 50
  let s1 :=
    if jsLtC metrics.typeTokenRatio (3/10) then s0 + 20
    else if jsLtC metrics.typeTokenRatio (1/2) then s0 + 10
    else if jsGtC metrics.typeTokenRatio (7/10) then s0 - 15
    else s0
  let s2 := if jsGtC metrics.functionWordRatio (1/2) then s1 + 15 else s1
  let s3 := if jsGtC metrics.functionWordRatio (6/10) then s2 + 10 else s2
  let s4 := if jsLtC metrics.polysyllableRatio (1/10) then s3 + 15 else s3
  let s5 := if jsLtC metrics.polysyllableRatio (15/100) then s4 + 10 else s4
  let s6 :=
    if jsGtC metrics.averageSentenceLength 15 && jsLtC metrics.averageSentenceLength 25
    then s5 + 10 else s5
  min 100 (max 0 s6)

/-- `scoreFingerprint`. -/
def scoreFingerprint (metrics : AIFingerprintResult) : ℚ :=
  metrics.normalizedScore

/-- `combineScores`. -/
def combineScores (w : ScoringWeights) (scores : ScoreSet) : ℚ :=
  scores.perplexity * w.perplexity +
  scores.burstiness * w.burstiness +
  scores.entropy * w.entropy +
  scores.stylometry * w.stylometry +
  scores.fingerprint * w.fingerprint

/-- `calculateConfidence` (the entropy argument is accepted and unused,
as in the source). -/
def calculateConfidence (perplexity : PerplexityResult)
    (burstiness : BurstinessResult) (entropy : EntropyResult) : Confidence :=
  let perplexitySignal := |perplexity.perplexity - 50| / 50
  let burstinessSignal := |burstiness.burstinessIndex - 1/2| / (1/2)
  let avgSignal := (perplexitySignal + burstinessSignal) / 2
  if 1/2 < avgSignal then Confidence.high
  else if 1/4 < avgSignal then Confidence.medium
  else Confidence.low

/-- `determineVerdict` (the source computes a confidence-dependent
`threshold` local that it never uses; the classification depends only on
the aggregate probability). -/
def determineVerdict (aiProbability : ℚ) (confidence : Confidence) : Verdict :=
  if 85 ≤ aiProbability then Verdict.definitelyAI
  else if 70 ≤ aiProbability then Verdict.likelyAI
  else if 55 ≤ aiProbability then Verdict.possiblyAI
  else if 45 ≤ aiProbability then Verdict.uncertain
  else if 30 ≤ aiProbability then Verdict.possiblyHuman
  else if 15 ≤ aiProbability then Verdict.likelyHuman
  else Verdict.definitelyHuman

/-- Display rendering of a number inside an explanation string.  The
JavaScript template literal prints the IEEE double; this embedding prints
the exact rational, an approximation that no claim depends on. -/
def numStr (q : ℚ) : Str := strL (toString q)

/-- Display rendering of `toFixed(3)` (same caveat as `numStr`). -/
def fixed3 (q : ℚ) : Str := strL (toString (round3 q))

/-- `generateRecommendations`. -/
def generateRecommendations (scores : ScoreSet) (metr : Metrics) : List Str :=
  let recommendations :=
    (if 60 < scores.perplexity then
      [strL ("Text shows highly predictable patterns - consider varying sentence structures")]
     else []) ++
    (if 60 < scores.burstiness then
      [strL ("Sentence lengths are very uniform - introduce more variation")]
     else []) ++
    (if 40 < scores.fingerprint then
      [strL ("Detected ") ++ strL (toString metr.fingerprint.markerWordCount) ++
        strL (" AI-specific words - replace with more natural alternatives")]
     else []) ++
    (if 60 < scores.stylometry then
      [strL ("Writing shows AI-typical patterns - add more personal voice and variation")]
     else []) ++
    (if scores.entropy < 30 then
      [strL ("Text entropy is low - introduce more vocabulary diversity")]
     else [])
  if recommendations.length = 0 then
    [strL ("Text shows natural human writing patterns")]
  else recommendations

/-- `buildDetails`. -/
def buildDetails (scores : ScoreSet) (metr : Metrics) : Details :=
  let keyIndicators :=
    (if 70 < scores.perplexity then
      [strL ("Very predictable text (perplexity: ") ++
        numStr metr.perplexity.perplexity ++ strL (")")]
     else []) ++
    (if 70 < scores.burstiness then
      [strL ("Extremely uniform sentence lengths (CV: ") ++
        fixed3 metr.burstiness.coefficientOfVariation ++ strL (")")]
     else []) ++
    (if 50 < scores.fingerprint then
      [strL ("Contains ") ++ strL (toString metr.fingerprint.totalMarkers) ++
        strL (" AI-specific markers")]
     else [])
  let warnings :=
    (if jsLtC metr.stylometry.typeTokenRatio (4/10) then
      [strL ("Low vocabulary diversity detected")]
     else []) ++
    (if metr.fingerprint.isHighDensity then
      [strL ("High density of AI-typical phrases and patterns")]
     else [])
  let reason :=
    if scores.burstiness ≤ scores.perplexity ∧ scores.fingerprint ≤ scores.perplexity then
      strL ("Primary indicator is text predictability (perplexity analysis)")
    else if scores.perplexity ≤ scores.burstiness ∧ scores.fingerprint ≤ scores.burstiness then
      strL ("Primary indicator is uniform sentence structure (burstiness analysis)")
    else
      strL ("Primary indicator is AI-specific linguistic markers (fingerprint analysis)")
  { reason := reason, keyIndicators := keyIndicators, warnings := warnings }

/-- `shortTextResult`: the fixed neutral record for texts under the word
threshold. -/
def shortTextResult : AIDetectionResult :=
  { aiProbability := 50
    humanProbability := 50
    scores :=
      { perplexity := 50, burstiness := 50, entropy := 50
        stylometry := 50, fingerprint := 50 }
    metrics :=
      { perplexity :=
          { perplexity := 0, logProbability := 0, tokenCount := 0
            interpretation := PerplexityInterp.natural }
        burstiness :=
          { sentenceMean := 0, sentenceStdDev := 0
            coefficientOfVariation := 0, burstinessIndex := 0
            lengthDistribution :=
              { min := JSNum.n 0, max := JSNum.n 0, median := 0, mode := 0
                quartiles := (0, 0, 0), histogram := [] }
            paragraphMean := 0, paragraphStdDev := 0
            isLowBurstiness := false, isHumanBurstiness := false
            interpretation := strL ("Text too short for reliable analysis") }
        entropy :=
          { shannonEntropy := 0, wordEntropy := 0, conditionalEntropy := 0
            normalizedShannon := JSNum.n 0
            interpretation := EntInterp.moderateEntropy
            byteEntropy := none }
        stylometry :=
          { typeTokenRatio := JSNum.n 0, hapaxLegemnaRatio := JSNum.n 0
            yulesK := JSNum.n 0, simpsonsIndex := JSNum.n 0
            averageSentenceLength := JSNum.n 0, averageClauseCount := JSNum.n 0
            subordinateClauseRatio := JSNum.n 0, averageWordLength := JSNum.n 0
            polysyllableRatio := JSNum.n 0, punctuationVariety := JSNum.n 0
            commaToSentenceRatio := JSNum.n 0, functionWordRatio := JSNum.n 0
            stopWordFrequency := JSNum.n 0, verbRatio := JSNum.n 0
            nounRatio := JSNum.n 0, adjectiveRatio := JSNum.n 0 }
        fingerprint :=
          { markerWordCount := 0, markerPhraseCount := 0, patternMatchCount := 0
            totalMarkers := 0, normalizedScore := 0, density := 0
            detectedMarkers := [], isHighDensity := false
            interpretation := strL ("Text too short for reliable analysis") } }
    confidence := Confidence.low
    verdict := Verdict.uncertain
    recommendations := [strL ("Text is too short for reliable AI detection")]
    details :=
      { reason := strL ("Insufficient text length for analysis")
        keyIndicators := []
        warnings := [strL ("Analysis may be unreliable for texts under 10 words")] } }

/-- The five sub-scores computed by `analyze` on the full branch (the
extractor results are pure functions of the text and the shared pattern
state, so re-reading them here is the same as the source's single read). -/
def scoresOf (F : RealFns) (text : Str) (st : List ℕ) : ScoreSet :=
  { perplexity := scorePerplexity (calculate F trainedModel text)
    burstiness := scoreBurstiness (Burstiness.analyze F text)
    entropy := scoreEntropy (Entropy.analyze F text)
    stylometry := scoreStylometry (Stylometry.extractFeatures text)
    fingerprint := scoreFingerprint (detect text st).1 }

/-- The metric bundle of the full branch. -/
def metricsOf (F : RealFns) (text : Str) (st : List ℕ) : Metrics :=
  { perplexity := calculate F trainedModel text
    burstiness := Burstiness.analyze F text
    entropy := Entropy.analyze F text
    stylometry := Stylometry.extractFeatures text
    fingerprint := (detect text st).1 }

/-- The result record of the full branch of `analyze`. -/
def fullResult (F : RealFns) (w : ScoringWeights) (text : Str) (st : List ℕ) :
    AIDetectionResult :=
  let scores := scoresOf F text st
  let aiProbability := combineScores w scores
  let confidence := calculateConfidence (calculate F trainedModel text)
    (Burstiness.analyze F text) (Entropy.analyze F text)
  { aiProbability := jsRound aiProbability
    humanProbability := jsRound (100 - aiProbability)
    scores := scores
    metrics := metricsOf F text st
    confidence := confidence
    verdict := determineVerdict aiProbability confidence
    recommendations := generateRecommendations scores (metricsOf F text st)
    details := buildDetails scores (metricsOf F text st) }

/-- `ScoringEngine.analyze`, threading the shared pattern state of the
fingerprint detector.  The short-text gate counts the pieces of
`text.split(/\s+/)` — including the empty boundary pieces produced by
leading or trailing whitespace. -/
def analyze (F : RealFns) (w : ScoringWeights) (text : Str) (st : List ℕ) :
    AIDetectionResult × List ℕ :=
  if (jsSplit isWsChar text).length < 10 then (shortTextResult, st)
  else (fullResult F w text st, (detect text st).2)

theorem fullResult_aiProb (F : RealFns) (w : ScoringWeights) (text : Str)
    (st : List ℕ) :
    (fullResult F w text st).aiProbability =
      jsRound (combineScores w (scoresOf F text st)) := rfl

theorem fullResult_humanProb (F : RealFns) (w : ScoringWeights) (text : Str)
    (st : List ℕ) :
    (fullResult F w text st).humanProbability =
      jsRound (100 - combineScores w (scoresOf F text st)) := rfl

theorem fullResult_scores (F : RealFns) (w : ScoringWeights) (text : Str)
    (st : List ℕ) :
    (fullResult F w text st).scores = scoresOf F text st := rfl

end Scoring

/-!  ## Supporting lemmas -/

/-- The central rounding identity: JavaScript `Math.round` is
`⌊· + 1/2⌋`, so the two rounded complements add to 100 — except when the
value sits exactly on a half-integer, where both halves round up and the
sum is 101. -/
theorem jsRound_add_compl (q : ℚ) :
    jsRound q + jsRound (100 - q) = 100 ∨ jsRound q + jsRound (100 - q) = 101 := by
  rw [jsRound, jsRound]
  have h1 : (⌊q + 1/2⌋ : ℚ) ≤ q + 1/2 := Int.floor_le _
  have h2 : q + 1/2 - 1 < (⌊q + 1/2⌋ : ℚ) := Int.sub_one_lt_floor _
  have h3 : (⌊100 - q + 1/2⌋ : ℚ) ≤ 100 - q + 1/2 := Int.floor_le _
  have h4 : 100 - q + 1/2 - 1 < (⌊100 - q + 1/2⌋ : ℚ) := Int.sub_one_lt_floor _
  have hle : ⌊q + 1/2⌋ + ⌊100 - q + 1/2⌋ ≤ 101 := by
    have : (↑(⌊q + 1/2⌋ + ⌊100 - q + 1/2⌋) : ℚ) ≤ 101 := by
      push_cast
      linarith
    exact_mod_cast this
  have hgt : 99 < ⌊q + 1/2⌋ + ⌊100 - q + 1/2⌋ := by
    have : (99 : ℚ) < (↑(⌊q + 1/2⌋ + ⌊100 - q + 1/2⌋) : ℚ) := by
      push_cast
      linarith
    exact_mod_cast this
  omega

/-- Rounding a value of [0, 100] stays in [0, 100]. -/
theorem jsRound_mem_range {q : ℚ} (h0 : 0 ≤ q) (h1 : q ≤ 100) :
    0 ≤ jsRound q ∧ jsRound q ≤ 100 := by
  rw [jsRound]
  constructor
  · have : (0 : ℚ) ≤ q + 1/2 := by linarith
    exact Int.floor_nonneg.mpr this
  · have hmono : ⌊q + 1/2⌋ ≤ ⌊(100 : ℚ) + 1/2⌋ :=
      Int.floor_le_floor (by linarith)
    have h100 : ⌊(100 : ℚ) + 1/2⌋ = 100 := by norm_num
    omega

namespace Scoring

theorem scorePerplexity_range (m : PerplexityResult) :
    0 ≤ scorePerplexity m ∧ scorePerplexity m ≤ 100 := by
  rw [scorePerplexity]
  split_ifs <;> norm_num

theorem scoreBurstiness_range (m : BurstinessResult) :
    0 ≤ scoreBurstiness m ∧ scoreBurstiness m ≤ 100 := by
  rw [scoreBurstiness]
  split_ifs <;> norm_num

theorem scoreEntropy_range (m : EntropyResult) :
    0 ≤ scoreEntropy m ∧ scoreEntropy m ≤ 100 := by
  rw [scoreEntropy]
  split_ifs <;> norm_num

theorem scoreStylometry_range (m : StylometricFeatures) :
    0 ≤ scoreStylometry m ∧ scoreStylometry m ≤ 100 := by
  rw [scoreStylometry]
  constructor
  · exact le_min (by norm_num) (le_max_left 0 _)
  · exact min_le_left _ _

theorem detect_normalizedScore_range (t : Str) (st : List ℕ) :
    0 ≤ (detect t st).1.normalizedScore ∧ (detect t st).1.normalizedScore ≤ 100 := by
  rw [detect]
  simp only []
  constructor
  · apply le_min (by norm_num)
    have hw : (1 : ℚ) ≤ ((jsSplit isWsChar t).length : ℚ) := by
      exact_mod_cast jsSplit_length_pos isWsChar t
    have hd : (0 : ℚ) ≤
        (((detectMarkerWords t ++ detectMarkerPhrases t ++ (detectPatternsSt t st).1).length : ℚ) /
          ((jsSplit isWsChar t).length : ℚ)) * 100 := by
      apply mul_nonneg _ (by norm_num)
      apply div_nonneg (by positivity) (by linarith)
    have : (0 : ℚ) ≤ (jsRound ((((detectMarkerWords t ++ detectMarkerPhrases t ++ (detectPatternsSt t st).1).length : ℚ) /
          ((jsSplit isWsChar t).length : ℚ) * 100) * 25) : ℤ) := by
      have h25 : (0 : ℚ) ≤ (((detectMarkerWords t ++ detectMarkerPhrases t ++ (detectPatternsSt t st).1).length : ℚ) /
          ((jsSplit isWsChar t).length : ℚ) * 100) * 25 := by positivity
      exact_mod_cast Int.floor_nonneg.mpr (by linarith : (0:ℚ) ≤ _ + 1/2)
    exact_mod_cast this
  · exact min_le_left _ _

theorem scoreFingerprint_range (t : Str) (st : List ℕ) :
    0 ≤ scoreFingerprint (detect t st).1 ∧ scoreFingerprint (detect t st).1 ≤ 100 := by
  rw [scoreFingerprint]
  exact detect_normalizedScore_range t st

theorem combineScores_default_range (s : ScoreSet)
    (hp : 0 ≤ s.perplexity ∧ s.perplexity ≤ 100)
    (hb : 0 ≤ s.burstiness ∧ s.burstiness ≤ 100)
    (he : 0 ≤ s.entropy ∧ s.entropy ≤ 100)
    (hs : 0 ≤ s.stylometry ∧ s.stylometry ≤ 100)
    (hf : 0 ≤ s.fingerprint ∧ s.fingerprint ≤ 100) :
    0 ≤ combineScores DEFAULT_WEIGHTS s ∧ combineScores DEFAULT_WEIGHTS s ≤ 100 := by
  obtain ⟨hp0, hp1⟩ := hp
  obtain ⟨hb0, hb1⟩ := hb
  obtain ⟨he0, he1⟩ := he
  obtain ⟨hs0, hs1⟩ := hs
  obtain ⟨hf0, hf1⟩ := hf
  rw [combineScores]
  constructor
  · rw [DEFAULT_WEIGHTS]
    simp only []
    linarith
  · rw [DEFAULT_WEIGHTS]
    simp only []
    linarith

end Scoring

/-!  ## Conditional entropy: closed-form reformulation and the spec's
formula -/

namespace Entropy

/-- The contribution of position `i` to `conditionalEntropy`, as an
option: `-log2` of the looked-up probability of `tokens[i + ngramSize]`
when it is present and positive. -/
def condOpt (F : RealFns) (tokens : List Str) (ngramSize : ℕ) (i : ℕ) :
    Option ℚ :=
  let context := List.intercalate [' '] (sliceL tokens i (i + ngramSize - 1))
  let nextWord := tokens.getD (i + ngramSize) []
  match (getContextProbabilities tokens context i).find? (fun e => e.1 = nextWord) with
  | some e => if 0 < e.2 then some (-F.log2 e.2) else none
  | none => none

theorem condStep_eq_condOpt (F : RealFns) (tokens : List Str) (n : ℕ)
    (st : ℚ × ℕ) (i : ℕ) :
    condStep F tokens n st i =
      match condOpt F tokens n i with
      | some v => (st.1 + v, st.2 + 1)
      | none => st := by
  simp only [condStep, condOpt]
  cases hf : (getContextProbabilities tokens
      (List.intercalate [' '] (sliceL tokens i (i + n - 1))) i).find?
      (fun e => e.1 = tokens.getD (i + n) []) with
  | none => simp
  | some e =>
    simp only []
    split_ifs with h
    · simp [sub_eq_add_neg]
    · simp

/-- Folding the option-valued step over a list accumulates the sum and
the count of the `some` contributions. -/
theorem foldl_optStep (f : ℕ → Option ℚ) :
    ∀ (l : List ℕ) (a : ℚ) (c : ℕ),
      l.foldl (fun st i =>
        match f i with
        | some v => (st.1 + v, st.2 + 1)
        | none => st) (a, c)
      = (a + (l.filterMap f).sum, c + (l.filterMap f).length) := by
  intro l
  induction l with
  | nil => intro a c; simp
  | cons x xs ih =>
    intro a c
    rw [List.foldl_cons, List.filterMap_cons]
    cases hf : f x with
    | none => simp only []; rw [ih]
    | some v =>
      simp only []
      rw [ih]
      simp only [List.sum_cons, List.length_cons, Prod.mk.injEq]
      constructor
      · ring
      · omega

/-- The qualifying contributions of a token list. -/
def condContribs (F : RealFns) (tokens : List Str) (n : ℕ) : List ℚ :=
  (List.range (tokens.length - n)).filterMap (condOpt F tokens n)

/-- Closed form of `conditionalEntropy`: the average of `-log2 p` over
the positions whose looked-up probability (of the token at offset
`ngramSize` from the context start, against the immediate-continuation
distribution of the 1-word context) is present and positive. -/
def conditionalEntropyGold (F : RealFns) (text : Str) (n : ℕ) : ℚ :=
  let tokens := wordsWS text
  if tokens.length < n + 1 then 0
  else
    let contribs := condContribs F tokens n
    if contribs.length = 0 then 0
    else round3 (contribs.sum / (contribs.length : ℚ))

theorem condTotals_eq (F : RealFns) (tokens : List Str) (n : ℕ) :
    condTotals F tokens n =
      ((condContribs F tokens n).sum, (condContribs F tokens n).length) := by
  rw [condTotals, condContribs]
  have hext : (List.range (tokens.length - n)).foldl (condStep F tokens n) (0, 0)
      = (List.range (tokens.length - n)).foldl
        (fun st i =>
          match condOpt F tokens n i with
          | some v => (st.1 + v, st.2 + 1)
          | none => st) (0, 0) := by
    apply List.foldl_ext
    intro st i _
    exact condStep_eq_condOpt F tokens n st i
  rw [hext, foldl_optStep]
  simp

theorem conditionalEntropy_eq_gold (F : RealFns) (text : Str) (n : ℕ) :
    conditionalEntropy F text n = conditionalEntropyGold F text n := by
  rw [conditionalEntropy, conditionalEntropyGold]
  simp only [condTotals_eq]
  split_ifs with h1 h2 h3 <;> first | rfl | omega

/-- Modelled from the spec sentence of claim C5 (and spec section 4.3c):
at each position the word *immediately following* the 1-word context —
`tokens[i + 1]` rather than the code's `tokens[i + 2]` — is scored
against the context's immediate-continuation distribution.  This is the
formula the claim asserts; the counterexample compares it with the
code. -/
def condOptImmediate (F : RealFns) (tokens : List Str) (i : ℕ) : Option ℚ :=
  let context := List.intercalate [' '] (sliceL tokens i (i + 1))
  let nextWord := tokens.getD (i + 1) []
  match (getContextProbabilities tokens context i).find? (fun e => e.1 = nextWord) with
  | some e => if 0 < e.2 then some (-F.log2 e.2) else none
  | none => none

/-- Modelled from the spec: the claimed conditional-entropy formula with
the immediately-following word, averaged over the same positions. -/
def conditionalEntropySpec (F : RealFns) (text : Str) : ℚ :=
  let tokens := wordsWS text
  if tokens.length < 3 then 0
  else
    let contribs := (List.range (tokens.length - 2)).filterMap (condOptImmediate F tokens)
    if contribs.length = 0 then 0
    else round3 (contribs.sum / (contribs.length : ℚ))

end Entropy

/-!  ## N-gram model: termination bound and positivity -/

namespace NGramModel

theorem probFuel_of_backoffFuel (m : NGramModel) (word : Str) (ctx : List Str)
    (hB : ∀ fuel, 2 * ctx.length + 1 ≤ fuel →
      backoffFuel m word fuel ctx = some (backoffProbability m word ctx)) :
    ∀ fuel, 2 * ctx.length + 2 ≤ fuel →
      probabilityFuel m word fuel ctx = some (probability m word ctx) := by
  intro fuel hf
  obtain ⟨f, rfl⟩ : ∃ f, fuel = f + 1 := ⟨fuel - 1, by omega⟩
  rw [probabilityFuel]
  rw [probability]
  simp only []
  split_ifs with h0
  · exact hB f (by omega)
  · cases hlf : lookupFreq (List.intercalate [' '] ctx) m.frequencies with
    | none => simp only []; exact hB f (by omega)
    | some fm => simp only []

/-- Fuel `2·|ctx| + 2` always suffices for `probability`, and
`2·|ctx| + 1` for `backoffProbability`: the backoff recursion strictly
shortens the context, bottoming out at the unigram base case. -/
theorem fuelBound (m : NGramModel) (word : Str) :
    ∀ (n : ℕ) (ctx : List Str), ctx.length ≤ n →
      (∀ fuel, 2 * ctx.length + 1 ≤ fuel →
        backoffFuel m word fuel ctx = some (backoffProbability m word ctx)) ∧
      (∀ fuel, 2 * ctx.length + 2 ≤ fuel →
        probabilityFuel m word fuel ctx = some (probability m word ctx)) := by
  intro n
  induction n with
  | zero =>
    intro ctx hlen
    have hctx : ctx = [] := List.length_eq_zero.mp (Nat.le_zero.mp hlen)
    subst hctx
    have hB : ∀ fuel, 2 * ([] : List Str).length + 1 ≤ fuel →
        backoffFuel m word fuel [] = some (backoffProbability m word []) := by
      intro fuel hf
      obtain ⟨f, rfl⟩ : ∃ f, fuel = f + 1 := ⟨fuel - 1, by omega⟩
      rw [backoffFuel, backoffProbability]
    exact ⟨hB, probFuel_of_backoffFuel m word [] hB⟩
  | succ n ih =>
    intro ctx hlen
    have hB : ∀ fuel, 2 * ctx.length + 1 ≤ fuel →
        backoffFuel m word fuel ctx = some (backoffProbability m word ctx) := by
      intro fuel hf
      obtain ⟨f, rfl⟩ : ∃ f, fuel = f + 1 := ⟨fuel - 1, by omega⟩
      match ctx with
      | [] => rw [backoffFuel, backoffProbability]
      | [x] => rw [backoffFuel, backoffProbability]
      | x :: y :: rest =>
        have hlen' : (y :: rest).length ≤ n := by
          simp only [List.length_cons] at hlen ⊢
          omega
        have hmain := (ih (y :: rest) hlen').2 f (by
          simp only [List.length_cons] at hf ⊢
          omega)
        rw [backoffFuel, backoffProbability] <;>
          first
          | exact hmain
          | exact fun hcon => absurd hcon (List.cons_ne_nil _ _)
    exact ⟨hB, probFuel_of_backoffFuel m word ctx hB⟩

/-- Well-formedness of a trained model: at least one context was seen,
and every context's frequency map is nonempty (the training loop inserts
them together). -/
def WellFormedModel (m : NGramModel) : Prop :=
  m.frequencies ≠ [] ∧ ∀ e ∈ m.frequencies, e.2 ≠ []

theorem bumpCount_ne_nil {α : Type} [DecidableEq α] (k : α)
    (l : List (α × ℕ)) : bumpCount k l ≠ [] := by
  cases l with
  | nil => simp [bumpCount]
  | cons e rest => rw [bumpCount]; split <;> simp

theorem bumpFreq_ne_nil (c w : Str) (l : List (Str × List (Str × ℕ))) :
    bumpFreq c w l ≠ [] := by
  cases l with
  | nil => simp [bumpFreq]
  | cons e rest =>
    obtain ⟨c', fm⟩ := e
    rw [bumpFreq]
    split <;> simp

theorem bumpFreq_entries (c w : Str) :
    ∀ (l : List (Str × List (Str × ℕ))), (∀ e ∈ l, e.2 ≠ []) →
      ∀ e ∈ bumpFreq c w l, e.2 ≠ [] := by
  intro l
  induction l with
  | nil =>
    intro _ e he
    simp [bumpFreq] at he
    subst he
    simp
  | cons hd rest ih =>
    intro h e he
    obtain ⟨c', fm⟩ := hd
    rw [bumpFreq] at he
    split at he
    · rcases List.mem_cons.mp he with h1 | h1
      · subst h1
        exact bumpCount_ne_nil w fm
      · exact h e (List.mem_cons_of_mem _ h1)
    · rcases List.mem_cons.mp he with h1 | h1
      · subst h1
        exact h (c', fm) (List.mem_cons_self _ _)
      · exact ih (fun e' he' => h e' (List.mem_cons_of_mem _ he')) e h1

theorem addTrigram_freqs_ne_nil (c w : Str) (m : NGramModel) :
    (addTrigram c w m).frequencies ≠ [] := bumpFreq_ne_nil c w m.frequencies

theorem addTrigram_entries (c w : Str) (m : NGramModel)
    (h : ∀ e ∈ m.frequencies, e.2 ≠ []) :
    ∀ e ∈ (addTrigram c w m).frequencies, e.2 ≠ [] :=
  bumpFreq_entries c w m.frequencies h

/-- Generic `foldl` preservation. -/
theorem foldl_pres {α β : Type} (P : β → Prop) (f : β → α → β)
    (h : ∀ b a, P b → P (f b a)) :
    ∀ (l : List α) (b : β), P b → P (l.foldl f b) := by
  intro l
  induction l with
  | nil => intro b hb; simpa using hb
  | cons x xs ih => intro b hb; rw [List.foldl_cons]; exact ih _ (h b x hb)

/-- A `foldl` whose step always leaves the frequency map nonempty. -/
theorem foldl_freqs_ne_nil {α : Type} (f : NGramModel → α → NGramModel)
    (hstep : ∀ m a, (f m a).frequencies ≠ []) :
    ∀ (l : List α) (m : NGramModel),
      (m.frequencies ≠ [] ∨ l ≠ []) → (l.foldl f m).frequencies ≠ [] := by
  intro l
  induction l with
  | nil =>
    intro m hm
    rcases hm with h | h
    · simpa using h
    · exact absurd rfl h
  | cons x xs ih =>
    intro m _
    rw [List.foldl_cons]
    exact ih (f m x) (Or.inl (hstep m x))

theorem trainText_freqs_ne_nil (m : NGramModel) (t : Str)
    (h : 3 ≤ (tokenizeN t).length ∨ m.frequencies ≠ []) :
    (trainText m t).frequencies ≠ [] := by
  rw [trainText]
  apply foldl_freqs_ne_nil _ (fun m' i => addTrigram_freqs_ne_nil _ _ m')
  rcases h with h | h
  · right
    simp [List.range_eq_nil]
    omega
  · exact Or.inl h

theorem trainText_entries (m : NGramModel) (t : Str)
    (h : ∀ e ∈ m.frequencies, e.2 ≠ []) :
    ∀ e ∈ (trainText m t).frequencies, e.2 ≠ [] := by
  rw [trainText]
  exact foldl_pres (fun m' => ∀ e ∈ m'.frequencies, e.2 ≠ [])
    _ (fun m' i hm' => addTrigram_entries _ _ m' hm') _ m h

/-- The engine's trained model is well-formed: its first corpus sentence
already contributes trigrams, and every later step preserves both
properties. -/
theorem trainedModel_wf : WellFormedModel trainedModel := by
  constructor
  · rw [trainedModel, train, TRAINING_CORPUS, List.foldl_cons]
    apply foldl_pres (fun m' => m'.frequencies ≠ [])
      trainText (fun m' t hm' => trainText_freqs_ne_nil m' t (Or.inr hm'))
    apply trainText_freqs_ne_nil
    left
    decide
  · rw [trainedModel, train]
    apply foldl_pres (fun m' => ∀ e ∈ m'.frequencies, e.2 ≠ [])
      trainText (fun m' t hm' => trainText_entries m' t hm')
    intro e he
    simp at he

theorem continuationProbability_pos (m : NGramModel)
    (h : m.frequencies ≠ []) (word : Str) :
    0 < continuationProbability m word := by
  rw [continuationProbability]
  apply div_pos
  · positivity
  · have h1 : (1 : ℚ) ≤ (m.frequencies.length : ℚ) := by
      exact_mod_cast List.length_pos.mpr h
    have h2 : (0 : ℚ) ≤
        (((m.frequencies.map (fun e => lookupD e.1 m.contextCounts)).sum : ℕ) : ℚ) := by
      positivity
    linarith

theorem unigramProbability_pos (m : NGramModel)
    (h : m.frequencies ≠ []) (word : Str) :
    0 < unigramProbability m word := by
  rw [unigramProbability]
  apply div_pos
  · positivity
  · have h1 : (1 : ℚ) ≤ (m.frequencies.length : ℚ) := by
      exact_mod_cast List.length_pos.mpr h
    have h2 : (0 : ℚ) ≤
        (((m.frequencies.map (fun e => lookupD e.1 m.contextCounts)).sum : ℕ) : ℚ) := by
      positivity
    linarith

/-- The main Kneser-Ney case is positive whenever the model is
well-formed and the backoff value would be positive. -/
theorem probability_pos_of_backoff (m : NGramModel) (hwf : WellFormedModel m)
    (word : Str) (ctx : List Str)
    (hB : 0 < backoffProbability m word ctx) :
    0 < probability m word ctx := by
  rw [probability]
  simp only []
  split_ifs with h0
  · exact hB
  · cases hlf : lookupFreq (List.intercalate [' '] ctx) m.frequencies with
    | none => simpa using hB
    | some fm =>
      simp only []
      have hcc : (0 : ℚ) < (lookupD (List.intercalate [' '] ctx) m.contextCounts : ℚ) := by
        exact_mod_cast Nat.pos_of_ne_zero h0
      have hfm : fm ≠ [] := by
        rw [lookupFreq] at hlf
        cases hfind : (m.frequencies.find? (fun e => e.1 = List.intercalate [' '] ctx)) with
        | none => rw [hfind] at hlf; simp at hlf
        | some e =>
          rw [hfind] at hlf
          simp at hlf
          subst hlf
          exact hwf.2 e (List.mem_of_find?_eq_some hfind)
      have huw : (1 : ℚ) ≤ (fm.length : ℚ) := by
        exact_mod_cast List.length_pos.mpr hfm
      have hcp := continuationProbability_pos m hwf.1 word
      apply add_pos_of_nonneg_of_pos
      · apply div_nonneg _ (le_of_lt hcc)
        exact le_max_left 0 _
      · apply mul_pos _ hcp
        apply div_pos _ hcc
        nlinarith

/-- For a well-formed model the smoothed probability is strictly
positive for every word and every context. -/
theorem probability_pos (m : NGramModel) (hwf : WellFormedModel m) :
    ∀ (n : ℕ) (ctx : List Str), ctx.length ≤ n → ∀ (word : Str),
      0 < backoffProbability m word ctx ∧ 0 < probability m word ctx := by
  intro n
  induction n with
  | zero =>
    intro ctx hlen word
    have hctx : ctx = [] := List.length_eq_zero.mp (Nat.le_zero.mp hlen)
    subst hctx
    have hB : 0 < backoffProbability m word [] := by
      rw [backoffProbability]
      exact unigramProbability_pos m hwf.1 word
    exact ⟨hB, probability_pos_of_backoff m hwf word [] hB⟩
  | succ n ih =>
    intro ctx hlen word
    have hB : 0 < backoffProbability m word ctx := by
      match ctx with
      | [] =>
        rw [backoffProbability]
        exact unigramProbability_pos m hwf.1 word
      | [x] =>
        rw [backoffProbability]
        exact unigramProbability_pos m hwf.1 word
      | x :: y :: rest =>
        have hlen' : (y :: rest).length ≤ n := by
          simp only [List.length_cons] at hlen ⊢
          omega
        rw [backoffProbability] <;>
          first
          | exact (ih (y :: rest) hlen' word).2
          | exact fun hcon => absurd hcon (List.cons_ne_nil _ _)
    exact ⟨hB, probability_pos_of_backoff m hwf word ctx hB⟩

end NGramModel

/-- A `filterMap` whose function always produces `some` keeps the
length. -/
theorem filterMap_length_all_some {α β : Type} (f : α → Option β) :
    ∀ (l : List α), (∀ a ∈ l, (f a).isSome) →
      (l.filterMap f).length = l.length := by
  intro l
  induction l with
  | nil => intro _; simp
  | cons x xs ih =>
    intro h
    rw [List.filterMap_cons]
    cases hf : f x with
    | none =>
      have := h x (List.mem_cons_self _ _)
      rw [hf] at this
      simp at this
    | some b =>
      simp only [List.length_cons]
      rw [ih (fun a ha => h a (List.mem_cons_of_mem _ ha))]

/-!  ## Claim theorems -/

set_option maxRecDepth 1000000
set_option maxHeartbeats 2000000

/-- The initial `lastIndex` state of the ten module-level `AI_PATTERNS`
regexes: freshly created regex objects start at 0. -/
def patInit : List ℕ := List.replicate AI_PATTERNS.length 0

/-- A 10-fragment text (full-analysis branch) engineered so that every
arithmetic step is exact: four alphabetic tokens (perplexity takes its
sub-5-token branch), sentence word counts 2,3,2,3 (coefficient of
variation exactly 0.2), no fingerprint markers, and a weighted score sum
of exactly 55.5. -/
def tCex1 : Str := strL ("a b. c d (! ) :? ; , [")

/-- Nine words wrapped in leading and trailing whitespace: the split
fragment count is 11, so the engine runs the full analysis although the
word count is 9. -/
def tCex2 : Str := strL (" a b c d ( ) : ; , ")

/-- Ten whitespace-separated periods: the full-analysis branch runs, yet
the text has no sentences and no tokenizable words. -/
def tCex3 : Str := strL (". . . . . . . . . .")

/-- Four tokens `a b a c`: the distribution after context `a` gives its
immediate followers probability 1/2 each, but the code queries the token
two places after the context, which is never among them. -/
def tCex5 : Str := strL ("a b a c")

/-- C1 counterexample: at `tCex1` the weighted sum is exactly 55.5, a
half-integer; JavaScript `Math.round` sends both 55.5 and 44.5 upward, so
the two probabilities are 56 and 45 and add to 101, not 100. -/
theorem claim_C1_counterexample :
    (Scoring.analyze approxFns DEFAULT_WEIGHTS tCex1 patInit).1.aiProbability = 56 ∧
    (Scoring.analyze approxFns DEFAULT_WEIGHTS tCex1 patInit).1.humanProbability = 45 ∧
    ¬ ((Scoring.analyze approxFns DEFAULT_WEIGHTS tCex1 patInit).1.aiProbability +
        (Scoring.analyze approxFns DEFAULT_WEIGHTS tCex1 patInit).1.humanProbability = 100) := by
  refine ⟨by decide, by decide, by decide⟩

/-- C1 (amended): for every input, `aiProbability + humanProbability` is
100 or 101; it is 101 exactly when the weighted sum of the sub-scores
lands on a half-integer, since `Math.round` rounds halves toward
positive infinity (witnessed by the counterexample above). -/
theorem claim_C1 (F : RealFns) (w : ScoringWeights) (text : Str) (st : List ℕ) :
    (Scoring.analyze F w text st).1.aiProbability +
        (Scoring.analyze F w text st).1.humanProbability = 100 ∨
    (Scoring.analyze F w text st).1.aiProbability +
        (Scoring.analyze F w text st).1.humanProbability = 101 := by
  rw [Scoring.analyze]
  split_ifs with h
  · left; rfl
  · exact jsRound_add_compl (Scoring.combineScores w (Scoring.scoresOf F text st))

/-- C2 counterexample: the text `tCex2` has 9 words, yet `analyze` does
not return the fixed neutral result, because the gate counts the
whitespace-split fragments — 11 here, due to the empty boundary
fragments produced by the leading and trailing whitespace. -/
theorem claim_C2_counterexample :
    Burstiness.countWords tCex2 = 9 ∧
    (Scoring.analyze approxFns DEFAULT_WEIGHTS tCex2 patInit).1 ≠ Scoring.shortTextResult := by
  refine ⟨by decide, fun h => ?_⟩
  have hcnt := congrArg (fun r => r.metrics.perplexity.tokenCount) h
  exact absurd hcnt (by decide)

/-- C2 (amended): whenever `text.split(/\s+/).length` — the fragment
count, including empty boundary fragments — is under 10, `analyze`
returns the fixed neutral result and leaves the pattern state
untouched. -/
theorem claim_C2 (F : RealFns) (w : ScoringWeights) (st : List ℕ) (text : Str)
    (h : (jsSplit isWsChar text).length < 10) :
    Scoring.analyze F w text st = (Scoring.shortTextResult, st) := by
  rw [Scoring.analyze, if_pos h]

/-- Witness for C2 at the empty string. -/
theorem claim_C2_witness :
    (jsSplit isWsChar (strL (""))).length < 10 ∧
    Scoring.analyze approxFns DEFAULT_WEIGHTS (strL ("")) patInit =
      (Scoring.shortTextResult, patInit) :=
  ⟨by decide, claim_C2 approxFns DEFAULT_WEIGHTS patInit (strL ("")) (by decide)⟩

/-- C3 counterexample: `tCex3` reaches the full analysis (10 fragments)
but has no sentences and no tokenizable words; the length-distribution
minimum is then `+Infinity` and the maximum `-Infinity` (spread of an
empty array into `Math.min`/`Math.max`), and the type-token ratio and
average sentence length are `NaN` and `+Infinity` (unguarded divisions)
— none of them the 0 default the claim asserts. -/
theorem claim_C3_counterexample :
    ¬ ((jsSplit isWsChar tCex3).length < 10) ∧
    (Scoring.analyze approxFns DEFAULT_WEIGHTS tCex3 patInit).1.metrics.burstiness.lengthDistribution.min = JSNum.inf ∧
    (Scoring.analyze approxFns DEFAULT_WEIGHTS tCex3 patInit).1.metrics.burstiness.lengthDistribution.max = JSNum.ninf ∧
    (Scoring.analyze approxFns DEFAULT_WEIGHTS tCex3 patInit).1.metrics.stylometry.typeTokenRatio = JSNum.nan ∧
    (Scoring.analyze approxFns DEFAULT_WEIGHTS tCex3 patInit).1.metrics.stylometry.averageSentenceLength = JSNum.inf ∧
    JSNum.inf ≠ JSNum.n 0 ∧ JSNum.nan ≠ JSNum.n 0 := by
  refine ⟨by decide, by decide, by decide, by decide, by decide, by decide, by decide⟩

/-- C3 (amended): nothing throws (every embedded operation is total),
and on a text with no sentences and no tokenizable words the explicitly
guarded statistics (median, mode, quartiles, coefficient of variation,
subordinate-clause ratio, comma-to-sentence ratio) do return 0 — but the
unguarded ones do not: the length-distribution min and max are the
infinities, and the type-token ratio is `NaN`. -/
theorem claim_C3 (F : RealFns) (text : Str)
    (hs : Burstiness.extractSentences text = [])
    (hw : Stylometry.tokenize text = []) :
    (Burstiness.analyze F text).lengthDistribution.median = 0 ∧
    (Burstiness.analyze F text).lengthDistribution.mode = 0 ∧
    (Burstiness.analyze F text).lengthDistribution.quartiles = (0, 0, 0) ∧
    (Burstiness.analyze F text).coefficientOfVariation = 0 ∧
    (Burstiness.analyze F text).lengthDistribution.min = JSNum.inf ∧
    (Burstiness.analyze F text).lengthDistribution.max = JSNum.ninf ∧
    (Stylometry.extractFeatures text).typeTokenRatio = JSNum.nan ∧
    (Stylometry.extractFeatures text).subordinateClauseRatio = JSNum.n 0 ∧
    (Stylometry.extractFeatures text).commaToSentenceRatio = JSNum.n 0 := by
  have hss : Stylometry.extractSentences text = [] := hs
  simp only [Burstiness.analyze, Stylometry.extractFeatures, hs, hw, hss,
    List.map_nil]
  refine ⟨by decide, by decide, by decide, ?_, by decide, by decide,
    by decide, by decide, by rfl⟩
  have hm : Burstiness.meanQ [] = 0 := by decide
  rw [hm]
  norm_num [round3, jsRound]

/-- Witness for C3 at the ten-period text. -/
theorem claim_C3_witness :
    Burstiness.extractSentences tCex3 = [] ∧
    Stylometry.tokenize tCex3 = [] ∧
    (Burstiness.analyze approxFns tCex3).lengthDistribution.median = 0 ∧
    (Burstiness.analyze approxFns tCex3).lengthDistribution.mode = 0 ∧
    (Burstiness.analyze approxFns tCex3).lengthDistribution.quartiles = (0, 0, 0) ∧
    (Burstiness.analyze approxFns tCex3).coefficientOfVariation = 0 ∧
    (Burstiness.analyze approxFns tCex3).lengthDistribution.min = JSNum.inf ∧
    (Burstiness.analyze approxFns tCex3).lengthDistribution.max = JSNum.ninf ∧
    (Stylometry.extractFeatures tCex3).typeTokenRatio = JSNum.nan ∧
    (Stylometry.extractFeatures tCex3).subordinateClauseRatio = JSNum.n 0 ∧
    (Stylometry.extractFeatures tCex3).commaToSentenceRatio = JSNum.n 0 := by
  refine ⟨by decide, by decide, ?_⟩
  have h := claim_C3 approxFns tCex3 (by decide) (by decide)
  exact ⟨h.1, h.2.1, h.2.2.1, h.2.2.2.1, h.2.2.2.2.1, h.2.2.2.2.2.1,
    h.2.2.2.2.2.2.1, h.2.2.2.2.2.2.2.1, h.2.2.2.2.2.2.2.2⟩

/-- Rank of a verdict on the AI-leaning scale (0 = most human, 6 = most
AI). -/
def verdictRank : Verdict → ℕ
  | Verdict.definitelyHuman => 0
  | Verdict.likelyHuman => 1
  | Verdict.possiblyHuman => 2
  | Verdict.uncertain => 3
  | Verdict.possiblyAI => 4
  | Verdict.likelyAI => 5
  | Verdict.definitelyAI => 6

/-- C4: over [0, 100] the verdict classification is total and exhaustive
— each probability satisfies exactly the interval characterisation of the
label it is mapped to, for either confidence — and monotone: a higher
probability never maps to a less AI-leaning label. -/
theorem claim_C4 (p q : ℚ) (c c' : Confidence)
    (hp0 : 0 ≤ p) (hp100 : p ≤ 100) (hq0 : 0 ≤ q) (hq100 : q ≤ 100)
    (hpq : p ≤ q) :
    ((Scoring.determineVerdict p c = Verdict.definitelyAI ↔ 85 ≤ p) ∧
     (Scoring.determineVerdict p c = Verdict.likelyAI ↔ 70 ≤ p ∧ p < 85) ∧
     (Scoring.determineVerdict p c = Verdict.possiblyAI ↔ 55 ≤ p ∧ p < 70) ∧
     (Scoring.determineVerdict p c = Verdict.uncertain ↔ 45 ≤ p ∧ p < 55) ∧
     (Scoring.determineVerdict p c = Verdict.possiblyHuman ↔ 30 ≤ p ∧ p < 45) ∧
     (Scoring.determineVerdict p c = Verdict.likelyHuman ↔ 15 ≤ p ∧ p < 30) ∧
     (Scoring.determineVerdict p c = Verdict.definitelyHuman ↔ p < 15)) ∧
    verdictRank (Scoring.determineVerdict p c) ≤
      verdictRank (Scoring.determineVerdict q c') := by
  constructor
  · rw [Scoring.determineVerdict]
    split_ifs with h1 h2 h3 h4 h5 h6 <;>
      refine ⟨?_, ?_, ?_, ?_, ?_, ?_, ?_⟩ <;>
      simp <;>
      first
      | linarith
      | exact ⟨by linarith, by linarith⟩
      | (rintro hx1 hx2; linarith)
      | (rintro ⟨hx1, hx2⟩; linarith)
      | (intro hx1; linarith)
  · rw [Scoring.determineVerdict, Scoring.determineVerdict]
    split_ifs <;> first | decide | linarith

/-- Witness for C4 at probabilities 50 and 90. -/
theorem claim_C4_witness :
    (0 : ℚ) ≤ 50 ∧ (50 : ℚ) ≤ 100 ∧ (0 : ℚ) ≤ 90 ∧ (90 : ℚ) ≤ 100 ∧
      (50 : ℚ) ≤ 90 ∧
    ((Scoring.determineVerdict 50 Confidence.low = Verdict.uncertain ↔
        (45 : ℚ) ≤ 50 ∧ (50 : ℚ) < 55) ∧
     verdictRank (Scoring.determineVerdict 50 Confidence.low) ≤
       verdictRank (Scoring.determineVerdict 90 Confidence.high)) := by
  refine ⟨by norm_num, by norm_num, by norm_num, by norm_num, by norm_num, ?_, ?_⟩
  · exact (claim_C4 50 90 Confidence.low Confidence.high (by norm_num)
      (by norm_num) (by norm_num) (by norm_num) (by norm_num)).1.2.2.2.1
  · exact (claim_C4 50 90 Confidence.low Confidence.high (by norm_num)
      (by norm_num) (by norm_num) (by norm_num) (by norm_num)).2

/-- C5 counterexample: on the four-token document `a b a c` the claimed
formula (score the word immediately following the context) gives 0.5,
but the code scores the word two positions after the context and finds
no qualifying position, returning 0. -/
theorem claim_C5_counterexample :
    Entropy.conditionalEntropy approxFns tCex5 2 = 0 ∧
    Entropy.conditionalEntropySpec approxFns tCex5 = 1/2 ∧
    Entropy.conditionalEntropy approxFns tCex5 2 ≠
      Entropy.conditionalEntropySpec approxFns tCex5 := by
  refine ⟨by decide, by decide, by decide⟩

/-- C5 (amended): the conditionalEntropy metric equals the average, over
the loop positions whose probability is present and positive, of `-log2`
of the probability of the token two places after the start of the 1-word
context (i.e. the word after the skipped middle word), where the
probability is that token's share in the immediate-continuation counts of
the context within the same document. -/
theorem claim_C5 (F : RealFns) (text : Str) (n : ℕ) :
    Entropy.conditionalEntropy F text n = Entropy.conditionalEntropyGold F text n :=
  Entropy.conditionalEntropy_eq_gold F text n

/-- Bounds of the fixed neutral result. -/
theorem shortTextResult_bounds :
    (0 ≤ Scoring.shortTextResult.scores.perplexity ∧
      Scoring.shortTextResult.scores.perplexity ≤ 100) ∧
    (0 ≤ Scoring.shortTextResult.scores.burstiness ∧
      Scoring.shortTextResult.scores.burstiness ≤ 100) ∧
    (0 ≤ Scoring.shortTextResult.scores.entropy ∧
      Scoring.shortTextResult.scores.entropy ≤ 100) ∧
    (0 ≤ Scoring.shortTextResult.scores.stylometry ∧
      Scoring.shortTextResult.scores.stylometry ≤ 100) ∧
    (0 ≤ Scoring.shortTextResult.scores.fingerprint ∧
      Scoring.shortTextResult.scores.fingerprint ≤ 100) ∧
    (0 ≤ Scoring.combineScores DEFAULT_WEIGHTS Scoring.shortTextResult.scores ∧
      Scoring.combineScores DEFAULT_WEIGHTS Scoring.shortTextResult.scores ≤ 100) ∧
    (0 ≤ Scoring.shortTextResult.aiProbability ∧
      Scoring.shortTextResult.aiProbability ≤ 100) := by
  refine ⟨by decide, by decide, by decide, by decide, by decide, by decide, by decide⟩

/-- C6: every sub-score of an analysis lies in [0, 100], and under the
default weights so do the aggregate weighted sum and the rounded
aiProbability. -/
theorem claim_C6 (F : RealFns) (text : Str) (st : List ℕ) :
    (0 ≤ (Scoring.analyze F DEFAULT_WEIGHTS text st).1.scores.perplexity ∧
      (Scoring.analyze F DEFAULT_WEIGHTS text st).1.scores.perplexity ≤ 100) ∧
    (0 ≤ (Scoring.analyze F DEFAULT_WEIGHTS text st).1.scores.burstiness ∧
      (Scoring.analyze F DEFAULT_WEIGHTS text st).1.scores.burstiness ≤ 100) ∧
    (0 ≤ (Scoring.analyze F DEFAULT_WEIGHTS text st).1.scores.entropy ∧
      (Scoring.analyze F DEFAULT_WEIGHTS text st).1.scores.entropy ≤ 100) ∧
    (0 ≤ (Scoring.analyze F DEFAULT_WEIGHTS text st).1.scores.stylometry ∧
      (Scoring.analyze F DEFAULT_WEIGHTS text st).1.scores.stylometry ≤ 100) ∧
    (0 ≤ (Scoring.analyze F DEFAULT_WEIGHTS text st).1.scores.fingerprint ∧
      (Scoring.analyze F DEFAULT_WEIGHTS text st).1.scores.fingerprint ≤ 100) ∧
    (0 ≤ Scoring.combineScores DEFAULT_WEIGHTS
        (Scoring.analyze F DEFAULT_WEIGHTS text st).1.scores ∧
      Scoring.combineScores DEFAULT_WEIGHTS
        (Scoring.analyze F DEFAULT_WEIGHTS text st).1.scores ≤ 100) ∧
    (0 ≤ (Scoring.analyze F DEFAULT_WEIGHTS text st).1.aiProbability ∧
      (Scoring.analyze F DEFAULT_WEIGHTS text st).1.aiProbability ≤ 100) := by
  rw [Scoring.analyze]
  split_ifs with h
  · exact shortTextResult_bounds
  · have hp := Scoring.scorePerplexity_range (calculate F trainedModel text)
    have hb := Scoring.scoreBurstiness_range (Burstiness.analyze F text)
    have he := Scoring.scoreEntropy_range (Entropy.analyze F text)
    have hsy := Scoring.scoreStylometry_range (Stylometry.extractFeatures text)
    have hf := Scoring.scoreFingerprint_range text st
    have hcomb := Scoring.combineScores_default_range
      (Scoring.scoresOf F text st) hp hb he hsy hf
    have hai := jsRound_mem_range hcomb.1 hcomb.2
    exact ⟨hp, hb, he, hsy, hf, hcomb, hai⟩

/-- A burstiness result whose only distinguishing field is the
coefficient of variation; every other field holds a fixed neutral
value.  Used to instantiate the CV-monotonicity claim at concrete
coefficients. -/
def cvOnly (cv : ℚ) : BurstinessResult :=
  { sentenceMean := 0, sentenceStdDev := 0, coefficientOfVariation := cv,
    burstinessIndex := 0,
    lengthDistribution :=
      { min := JSNum.n 0, max := JSNum.n 0, median := 0, mode := 0,
        quartiles := (0, 0, 0), histogram := [] },
    paragraphMean := 0, paragraphStdDev := 0,
    isLowBurstiness := false, isHumanBurstiness := false,
    interpretation := [] }

/-- C7: the burstiness sub-score is a non-increasing function of the
sentence-length coefficient of variation — for any two analyses, the one
with the smaller CV scores at least as high — and it realises exactly
the step table CV < 0.2 → 90, < 0.3 → 75, < 0.4 → 60, < 0.5 → 45,
< 0.6 → 30, < 0.75 → 20, else 10. -/
theorem claim_C7 (m1 m2 : BurstinessResult)
    (h : m1.coefficientOfVariation ≤ m2.coefficientOfVariation) :
    Scoring.scoreBurstiness m2 ≤ Scoring.scoreBurstiness m1 ∧
    ((m1.coefficientOfVariation < 2/10 → Scoring.scoreBurstiness m1 = 90) ∧
     (2/10 ≤ m1.coefficientOfVariation → m1.coefficientOfVariation < 3/10 →
       Scoring.scoreBurstiness m1 = 75) ∧
     (3/10 ≤ m1.coefficientOfVariation → m1.coefficientOfVariation < 4/10 →
       Scoring.scoreBurstiness m1 = 60) ∧
     (4/10 ≤ m1.coefficientOfVariation → m1.coefficientOfVariation < 5/10 →
       Scoring.scoreBurstiness m1 = 45) ∧
     (5/10 ≤ m1.coefficientOfVariation → m1.coefficientOfVariation < 6/10 →
       Scoring.scoreBurstiness m1 = 30) ∧
     (6/10 ≤ m1.coefficientOfVariation → m1.coefficientOfVariation < 75/100 →
       Scoring.scoreBurstiness m1 = 20) ∧
     (75/100 ≤ m1.coefficientOfVariation →
       Scoring.scoreBurstiness m1 = 10)) := by
  constructor
  · rw [Scoring.scoreBurstiness, Scoring.scoreBurstiness]
    split_ifs <;> linarith
  · rw [Scoring.scoreBurstiness]
    split_ifs <;>
      refine ⟨?_, ?_, ?_, ?_, ?_, ?_, ?_⟩ <;> intros <;>
      first | rfl | linarith

/-- Witness for C7 at CVs 0.25 and 0.55: the smaller CV scores 75, the
larger 30, and 75 is indeed not below 30. -/
theorem claim_C7_witness :
    (cvOnly (25/100)).coefficientOfVariation ≤
      (cvOnly (55/100)).coefficientOfVariation ∧
    Scoring.scoreBurstiness (cvOnly (55/100)) ≤
      Scoring.scoreBurstiness (cvOnly (25/100)) ∧
    Scoring.scoreBurstiness (cvOnly (25/100)) = 75 := by
  refine ⟨by norm_num [cvOnly], ?_, ?_⟩
  · exact (claim_C7 (cvOnly (25/100)) (cvOnly (55/100))
      (by norm_num [cvOnly])).1
  · exact (claim_C7 (cvOnly (25/100)) (cvOnly (55/100))
      (by norm_num [cvOnly])).2.2.1 (by norm_num [cvOnly])
      (by norm_num [cvOnly])

/-- C8: the engine is deterministic across repeated calls.  A call to
`analyze` always hands back the all-zero pattern state (every regex
`lastIndex` is reset to 0 by the drain loop, or untouched on the
short-text path), so a second call on the identical input — started from
whatever state the first call left behind — returns the identical
result. -/
theorem claim_C8 (F : RealFns) (w : ScoringWeights) (text : Str) :
    (Scoring.analyze F w text patInit).2 = patInit ∧
    (Scoring.analyze F w text
        ((Scoring.analyze F w text patInit).2)).1 =
      (Scoring.analyze F w text patInit).1 := by
  have h2 : (Scoring.analyze F w text patInit).2 = patInit := by
    rw [Scoring.analyze]
    split_ifs with h
    · rfl
    · exact detect_state text patInit
  exact ⟨h2, by rw [h2]⟩

/-- C9: the mutually recursive probability / backoffProbability lookup
terminates for every context of length at most 2 — each backoff strictly
shortens the context and bottoms out at the smoothed unigram base case —
with recursion depth bounded by the context length: any fuel of at least
`2·|context| + 2` call steps (at most 6 here) already reproduces the
total function's value. -/
theorem claim_C9 (m : NGramModel) (word : Str) (context : List Str)
    (hlen : context.length ≤ 2) (fuel : ℕ)
    (hf : 2 * context.length + 2 ≤ fuel) :
    NGramModel.probabilityFuel m word fuel context =
      some (NGramModel.probability m word context) :=
  (NGramModel.fuelBound m word context.length context (le_refl _)).2 fuel hf

/-- Witness for C9: the trained model, the word "fox" and the 2-word
context "the quick", with fuel 6. -/
theorem claim_C9_witness :
    ([strL ("the"), strL ("quick")].length ≤ 2 ∧
      2 * [strL ("the"), strL ("quick")].length + 2 ≤ 6) ∧
    NGramModel.probabilityFuel trainedModel (strL ("fox")) 6
        [strL ("the"), strL ("quick")] =
      some (NGramModel.probability trainedModel (strL ("fox"))
        [strL ("the"), strL ("quick")]) :=
  ⟨⟨by decide, by decide⟩,
    claim_C9 trainedModel (strL ("fox")) [strL ("the"), strL ("quick")]
      (by decide) 6 (by decide)⟩

/-- C10: on the model trained from the fixed reference corpus the n-gram
probability is strictly positive for every word and every context (the
add-0.1 smoothing in the unigram base case and in the continuation
probability makes zero impossible), so in `calculate` every token of a
text with at least 5 tokens contributes a log-probability and the
`no positive-probability token` branch returning the neutral perplexity
100 is unreachable: the result is always the genuine averaged-perplexity
record. -/
theorem claim_C10 :
    (∀ (word : Str) (ctx : List Str),
       0 < NGramModel.probability trainedModel word ctx) ∧
    (∀ (F : RealFns) (text : Str), 5 ≤ (tokenizeP text).length →
       (validLogProbs F trainedModel (tokenizeP text)).length =
           (tokenizeP text).length ∧
       calculate F trainedModel text =
         { perplexity := round2 (F.pow2
             (-((validLogProbs F trainedModel (tokenizeP text)).sum /
                ((validLogProbs F trainedModel (tokenizeP text)).length : ℚ))))
           logProbability := round2
             ((validLogProbs F trainedModel (tokenizeP text)).sum /
              ((validLogProbs F trainedModel (tokenizeP text)).length : ℚ))
           tokenCount := (validLogProbs F trainedModel (tokenizeP text)).length
           interpretation := interpretPerplexity (F.pow2
             (-((validLogProbs F trainedModel (tokenizeP text)).sum /
                ((validLogProbs F trainedModel (tokenizeP text)).length :
                  ℚ)))) }) := by
  have hpos : ∀ (word : Str) (ctx : List Str),
      0 < NGramModel.probability trainedModel word ctx := fun word ctx =>
    (NGramModel.probability_pos trainedModel NGramModel.trainedModel_wf
      ctx.length ctx (le_refl _) word).2
  refine ⟨hpos, ?_⟩
  intro F text h5
  have hlen : (validLogProbs F trainedModel (tokenizeP text)).length =
      (tokenizeP text).length := by
    rw [validLogProbs]
    have hfm := filterMap_length_all_some
      (fun i =>
        let context := sliceL (tokenizeP text) (i - 2) i
        let word := (tokenizeP text).getD i []
        let prob := NGramModel.probability trainedModel word context
        if 0 < prob then some (F.log2 prob) else none)
      (List.range (tokenizeP text).length) ?_
    · rw [hfm, List.length_range]
    · intro i hi
      simp only []
      rw [if_pos (hpos _ _)]
      rfl
  refine ⟨hlen, ?_⟩
  rw [calculate]
  simp only []
  rw [if_neg (by omega), if_neg (by rw [hlen]; omega)]

/-- Witness for C10 at the five-token text `a b c d e`: the token gate
holds and every one of the 5 tokens contributes a log-probability. -/
theorem claim_C10_witness :
    5 ≤ (tokenizeP (strL ("a b c d e"))).length ∧
    (validLogProbs approxFns trainedModel
        (tokenizeP (strL ("a b c d e")))).length =
      (tokenizeP (strL ("a b c d e"))).length :=
  ⟨by decide,
    (claim_C10.2 approxFns (strL ("a b c d e")) (by decide)).1⟩
